import Mathlib

/-!
Verification development for the transform layer of the consumer-flex-app
repository (`consumer_flex_app/demand_flexibility_service/transform.py`).

Tables are embedded as lists of typed rows.  Numeric (float) columns are
embedded as rationals; the one place where IEEE special values matter
(the settled-price ratio) uses an explicit extended value type `FVal`.
Timestamps built by `pd.to_datetime(date + " " + time).dt.tz_localize`
are embedded as an order-faithful integer encoding of the wall-clock
instant (the pipeline only ever compares, groups and joins on them).
pandas `groupby(sort=True)` is embedded as iteration over the sorted
list of distinct keys, each group being the sublist of rows with that
key, in original row order.
-/

/-! ### Generic ordering / groupby machinery -/

/-- The relation `f a ≤ f b` pulled back along an embedding into an ordered
type.  All groupby key sorts below use this with an explicit, kernel-computable
embedding (strings are compared through their character lists, tuples
lexicographically, matching how pandas sorts object / tuple keys). -/
def pbLe {K E : Type} [LE E] (f : K → E) (a b : K) : Prop := f a ≤ f b

instance {K E : Type} [LinearOrder E] (f : K → E) : DecidableRel (pbLe f) :=
  fun a b => inferInstanceAs (Decidable (f a ≤ f b))

instance {K E : Type} [LinearOrder E] (f : K → E) : IsTotal K (pbLe f) :=
  ⟨fun a b => le_total (f a) (f b)⟩

instance {K E : Type} [LinearOrder E] (f : K → E) : IsTrans K (pbLe f) :=
  ⟨fun _ _ _ hab hbc => le_trans hab hbc⟩

theorem isAntisymm_pbLe {K E : Type} [LinearOrder E] {f : K → E}
    (hf : Function.Injective f) : IsAntisymm K (pbLe f) :=
  ⟨fun _ _ hab hba => hf (le_antisymm hab hba)⟩

/-- Sorted list of the distinct keys occurring in `l`: the index of a pandas
`groupby(sort=True)` over key column(s) embedded by `f`. -/
def sortedUniqueKeys {K E : Type} [LinearOrder E] [DecidableEq K] (f : K → E)
    (l : List K) : List K :=
  (l.insertionSort (pbLe f)).dedup

theorem mem_sortedUniqueKeys {K E : Type} [LinearOrder E] [DecidableEq K]
    (f : K → E) (l : List K) (a : K) : a ∈ sortedUniqueKeys f l ↔ a ∈ l := by
  rw [sortedUniqueKeys, List.mem_dedup]
  exact (List.perm_insertionSort (pbLe f) l).mem_iff

theorem nodup_sortedUniqueKeys {K E : Type} [LinearOrder E] [DecidableEq K]
    (f : K → E) (l : List K) : (sortedUniqueKeys f l).Nodup :=
  List.nodup_dedup _

theorem sorted_sortedUniqueKeys {K E : Type} [LinearOrder E] [DecidableEq K]
    (f : K → E) (l : List K) : List.Sorted (pbLe f) (sortedUniqueKeys f l) :=
  List.Pairwise.sublist (List.dedup_sublist _) (List.sorted_insertionSort (pbLe f) l)

theorem pairwise_lt_sortedUniqueKeys {K E : Type} [LinearOrder E] [DecidableEq K]
    {f : K → E} (hf : Function.Injective f) (l : List K) :
    List.Pairwise (fun a b => f a < f b) (sortedUniqueKeys f l) := by
  have hs := sorted_sortedUniqueKeys f l
  have hn := nodup_sortedUniqueKeys f l
  exact (hs.and hn).imp (fun {a b} h =>
    lt_of_le_of_ne h.1 (fun hfe => h.2 (hf hfe)))

theorem sortedUniqueKeys_congr {K E : Type} [LinearOrder E] [DecidableEq K]
    {f : K → E} (hf : Function.Injective f) {l₁ l₂ : List K}
    (h : ∀ a, a ∈ l₁ ↔ a ∈ l₂) :
    sortedUniqueKeys f l₁ = sortedUniqueKeys f l₂ := by
  haveI := isAntisymm_pbLe hf
  refine List.eq_of_perm_of_sorted ?_ (sorted_sortedUniqueKeys f l₁)
    (sorted_sortedUniqueKeys f l₂)
  refine (List.perm_ext_iff_of_nodup (nodup_sortedUniqueKeys f l₁)
    (nodup_sortedUniqueKeys f l₂)).mpr (fun a => ?_)
  rw [mem_sortedUniqueKeys, mem_sortedUniqueKeys]
  exact h a

theorem string_toList_injective : Function.Injective String.toList := by
  intro a b h
  exact congrArg String.mk h

/-- Lexicographic embedding for a two-string groupby key such as
`(Date, DFS Provider)`. -/
def pairKeyEmbed (k : String × String) : Lex (List Char × List Char) :=
  toLex (k.1.toList, k.2.toList)

theorem pairKeyEmbed_injective : Function.Injective pairKeyEmbed := by
  intro a b h
  have h' := congrArg ofLex h
  have h1 : a.1.toList = b.1.toList := congrArg Prod.fst h'
  have h2 : a.2.toList = b.2.toList := congrArg Prod.snd h'
  exact Prod.ext (string_toList_injective h1) (string_toList_injective h2)

/-- Lexicographic embedding for the four-part groupby key
`(Date, DFS Provider, settlement_period_start, settlement_period_end)`. -/
def bidKeyEmbed (k : String × String × Int × Int) :
    Lex (List Char × Lex (List Char × Lex (Int × Int))) :=
  toLex (k.1.toList, toLex (k.2.1.toList, toLex (k.2.2.1, k.2.2.2)))

theorem bidKeyEmbed_injective : Function.Injective bidKeyEmbed := by
  intro a b h
  have h' := congrArg ofLex h
  have h1 : a.1.toList = b.1.toList := congrArg Prod.fst h'
  have h2 := congrArg (fun p => ofLex p.2) h'
  have h21 : a.2.1.toList = b.2.1.toList := congrArg Prod.fst h2
  have h22 := congrArg (fun p => ofLex p.2) h2
  have h221 : a.2.2.1 = b.2.2.1 := congrArg Prod.fst h22
  have h222 : a.2.2.2 = b.2.2.2 := congrArg Prod.snd h22
  exact Prod.ext (string_toList_injective h1)
    (Prod.ext (string_toList_injective h21) (Prod.ext h221 h222))

/-! ### Character-level string helpers

`pandas.Series.str.replace(pat, rep)` (with a plain-string pattern) and
Python's substring test `pat in s` are embedded by direct recursion over
character lists, so that they evaluate inside the kernel. -/

def startsWithChars : List Char → List Char → Bool
  | [], _ => true
  | _ :: _, [] => false
  | p :: ps, c :: cs => p == c && startsWithChars ps cs

/-- Python `pat in s` (substring containment) on character lists. -/
def containsSub (pat : List Char) : List Char → Bool
  | [] => pat.isEmpty
  | c :: cs => startsWithChars pat (c :: cs) || containsSub pat cs

/-- One left-to-right, non-overlapping replacement pass, fuelled by the input
length (each step consumes at least one character, so the fuel is never
exhausted when initialised with the list length). -/
def replaceChars (pat rep : List Char) : Nat → List Char → List Char
  | _, [] => []
  | 0, l => l
  | fuel + 1, c :: cs =>
    if startsWithChars pat (c :: cs) then
      rep ++ replaceChars pat rep fuel ((c :: cs).drop pat.length)
    else
      c :: replaceChars pat rep fuel cs

/-- Python `s.replace(pat, rep)` / `pandas.Series.str.replace` with a
plain-string pattern: replace every non-overlapping occurrence, scanning
left to right. -/
def pyReplace (s pat rep : String) : String :=
  ⟨replaceChars pat.toList rep.toList s.toList.length s.toList⟩

/-! ### Date / time parsing and timezone-localised timestamps

`pd.to_datetime(df["Date"] + " " + df["From (GMT)"])` parses an ISO
`YYYY-MM-DD` date concatenated with an `HH:MM` time-of-day, raising a parse
error on malformed input; `.dt.tz_localize("Europe/London")` then attaches
the UK timezone.  The pipeline only ever compares, groups and joins these
timestamps against each other, so they are embedded by an order- and
equality-faithful integer code: `dateCode * 1440 + minutesOfDay`, where
`dateCode = year * 416 + month * 32 + day` is strictly monotone in the
calendar order of valid dates.  Localisation to Europe/London preserves the
wall-clock order of any two instants on the same date that localise
successfully (pandas raises on DST-nonexistent/ambiguous times), and all
timestamps in one run are localised the same way, so the encoding is
faithful for every use the transform layer makes of these values. -/

def parseNatDigits (l : List Char) : Option Nat :=
  if !l.isEmpty && l.all Char.isDigit then
    some (l.foldl (fun n c => n * 10 + (c.toNat - 48)) 0)
  else none

def splitOnChar (sep : Char) : List Char → List (List Char)
  | [] => [[]]
  | c :: cs =>
    match splitOnChar sep cs with
    | [] => [[]]
    | h :: t => if c == sep then [] :: h :: t else (c :: h) :: t

/-- Parse a `YYYY-MM-DD` date into a calendar-order-faithful code. -/
def parseDate (s : String) : Option Nat :=
  match splitOnChar '-' s.toList with
  | [y, m, d] => do
    let yn ← parseNatDigits y
    let mn ← parseNatDigits m
    let dn ← parseNatDigits d
    if y.length = 4 ∧ m.length = 2 ∧ d.length = 2 ∧
        1 ≤ mn ∧ mn ≤ 12 ∧ 1 ≤ dn ∧ dn ≤ 31 then
      some (yn * 416 + mn * 32 + dn)
    else none
  | _ => none

/-- Parse an `HH:MM` time-of-day into minutes after midnight. -/
def parseTimeOfDay (s : String) : Option Nat :=
  match splitOnChar ':' s.toList with
  | [h, m] => do
    let hn ← parseNatDigits h
    let mn ← parseNatDigits m
    if h.length = 2 ∧ m.length = 2 ∧ hn ≤ 23 ∧ mn ≤ 59 then
      some (hn * 60 + mn)
    else none
  | _ => none

/-- `pd.to_datetime(date + " " + time).tz_localize("Europe/London")`:
`none` models the ParseError raised on malformed input. -/
def toDatetimeLocalized (date time : String) : Option Int := do
  let d ← parseDate date
  let t ← parseTimeOfDay time
  pure ((d * 1440 + t : Nat) : Int)

/-! ### IEEE division for the settled-price ratio -/

/-- A float value that can be an ordinary (rational) number, NaN, or a signed
infinity — exactly the values `Settled Cost  / Settled Volume` can take. -/
inductive FVal where
  | num (q : ℚ)
  | nan
  | posInf
  | negInf
deriving DecidableEq

/-- IEEE-754 division of two finite values, as numpy/pandas performs it on
float columns: `0/0 = NaN`, `c/0 = ±inf` for `c ≠ 0`, no exception raised. -/
def fdiv (a b : ℚ) : FVal :=
  if b = 0 then
    if a = 0 then .nan else if 0 < a then .posInf else .negInf
  else .num (a / b)

/-! ### Median and pandas `.round()` -/

/-- pandas median: midpoint of the sorted values (mean of the two central
values for even length).  pandas yields NaN on an empty column; every group
this is applied to is nonempty, and the `0` default is never reached there. -/
def medianQ (l : List ℚ) : ℚ :=
  let s := l.insertionSort (· ≤ ·)
  if s.length = 0 then 0
  else if s.length % 2 = 1 then s.getD (s.length / 2) 0
  else (s.getD (s.length / 2 - 1) 0 + s.getD (s.length / 2) 0) / 2

/-- pandas/numpy `.round()` to 0 decimals: round half to even. -/
def roundHalfEven (q : ℚ) : Int :=
  if q - ⌊q⌋ < 1 / 2 then ⌊q⌋
  else if (1 : ℚ) / 2 < q - ⌊q⌋ then ⌊q⌋ + 1
  else if ⌊q⌋ % 2 = 0 then ⌊q⌋ else ⌊q⌋ + 1

def roundQ (q : ℚ) : ℚ := (roundHalfEven q : ℚ)

/-! ### Static lookup tables from `transform.py` -/

/-- `_forecast_cols`: the named forecast columns of the bids table, day-ahead
then same-day ("D0 ") variants, spelled exactly as in the source (note the
missing comma in the `D0` North Wales entry). -/
def forecast_cols : List String := [
  "North Scotland",
  "South and Central Scotland",
  "North East England",
  "North West England",
  "Yorkshire",
  "East Midlands",
  "West Midlands",
  "London",
  "East England",
  "South East England",
  "South West England",
  "Southern England",
  "North Wales, Merseyside and Cheshire",
  "South Wales",
  "Other",
  "Total",
  "D0 North Scotland",
  "D0 South and Central Scotland",
  "D0 North East England",
  "D0 North West England",
  "D0 Yorkshire",
  "D0 East Midlands",
  "D0 West Midlands",
  "D0 London",
  "D0 East England",
  "D0 South East England",
  "D0 South West England",
  "D0 Southern England",
  "D0 North Wales Merseyside and Cheshire",
  "D0 South Wales",
  "D0 Other",
  "D0 Total"]

/-- The column set of `BID_AGGREGATIONS` (every entry is aggregated with
`"sum"`), in the dict's insertion order. -/
def bid_agg_cols : List String :=
  forecast_cols ++ ["DFS Volume (MW)", "Price (£/MWh)"]

/-- `DFS_NAME_TO_DNO_NAME_MAPPING`: region display name → DNO region code. -/
def DFS_NAME_TO_DNO_NAME_MAPPING : List (String × String) := [
  ("East England", "_A"),
  ("East Midlands", "_B"),
  ("London", "_C"),
  ("North Wales, Merseyside and Cheshire", "_D"),
  ("West Midlands", "_E"),
  ("North East England", "_F"),
  ("North West England", "_G"),
  ("Southern England", "_H"),
  ("South East England", "_J"),
  ("South Wales", "_K"),
  ("South West England", "_L"),
  ("Yorkshire", "_M"),
  ("South and Central Scotland", "_N"),
  ("North Scotland", "_P")]

/-! ### Row types

Each table is a list of typed rows.  The two timestamp columns that
`_append_settlement_periods` adds are `Option Int` fields that start out
`none` (column absent) and become `some _` once the normaliser has run —
this models the presence/absence of the columns on the underlying frame. -/

/-- One raw bid submission (one row of the DFS Utilisation Report).  The
numeric columns (the 32 forecast columns, `DFS Volume (MW)`,
`Price (£/MWh)`) are exposed as a single column-name-indexed mapping. -/
structure BidRow where
  date : String                -- "Date"
  provider : String            -- "DFS Provider"
  fromGMT : String             -- "From (GMT)"
  toGMT : String               -- "To (GMT)"
  eventType : String           -- "dfs_event_type"
  vals : String → ℚ            -- numeric columns, by column name
  spStart : Option Int := none -- "settlement_period_start" (added in place)
  spEnd : Option Int := none   -- "settlement_period_end" (added in place)

/-- One row of the service-requirement table as loaded (before
`get_event_summary` renames its columns). -/
structure RawReqRow where
  deliveryDate : String        -- "Delivery Date"
  fromGMTRaw : String          -- "From GMT"
  toGMTRaw : String            -- "To GMT"
  eventType : String           -- "dfs_event_type"
  requiredMw : ℚ               -- "DFS Required (MW)"
  procuredDayAheadMw : ℚ       -- "DFS Procured (MW)"
deriving DecidableEq

/-- The requirement row after `get_event_summary`'s column renames. -/
structure ReqRow where
  date : String                -- "Date"
  fromGMT : String             -- "From (GMT)"
  toGMT : String               -- "To (GMT)"
  eventType : String           -- "dfs_event_type"
  requiredMw : ℚ
  procuredDayAheadMw : ℚ
  spStart : Option Int := none
  spEnd : Option Int := none
deriving DecidableEq

/-- One row of the settlement-summary table. -/
structure SummaryRow where
  date : String                -- "Date"
  fromGMT : String             -- "From (GMT)"
  toGMT : String               -- "To (GMT)"
  eventType : String           -- "dfs_event_type"
  settledVolume : ℚ            -- "Settled Volume"
  settledCost : ℚ              -- "Settled Cost " (sic, trailing space)
  d0ProcuredMw : ℚ             -- "D0 DFS Procured (MW)"
  spStart : Option Int := none
  spEnd : Option Int := none
deriving DecidableEq

/-- `requirements.rename(columns=requirements_column_renames)`: pandas
`rename` returns a new frame, so the caller's table is untouched. -/
def renameRequirements (r : RawReqRow) : ReqRow :=
  { date := r.deliveryDate, fromGMT := r.fromGMTRaw, toGMT := r.toGMTRaw,
    eventType := r.eventType, requiredMw := r.requiredMw,
    procuredDayAheadMw := r.procuredDayAheadMw }

/-! ### `_append_settlement_periods`

`df["settlement_period_start"] = pd.to_datetime(df["Date"] + " " +
df["From (GMT)"]).dt.tz_localize("Europe/London")` (and likewise for the
end column) assigns two new columns **on the frame it was given** and
returns that same frame; `none` models the ParseError escaping when any
row's date/time strings do not combine into a parseable timestamp. -/

/-- The per-row timestamp derivation of `_append_settlement_periods` for a
bid row. -/
def bid_norm_row (r : BidRow) : Option BidRow := do
  let s ← toDatetimeLocalized r.date r.fromGMT
  let e ← toDatetimeLocalized r.date r.toGMT
  pure { r with spStart := some s, spEnd := some e }

def append_settlement_periods_bids (df : List BidRow) : Option (List BidRow) :=
  df.mapM bid_norm_row

def append_settlement_periods_req (df : List ReqRow) : Option (List ReqRow) :=
  df.mapM fun r => do
    let s ← toDatetimeLocalized r.date r.fromGMT
    let e ← toDatetimeLocalized r.date r.toGMT
    pure { r with spStart := some s, spEnd := some e }

def append_settlement_periods_summary (df : List SummaryRow) :
    Option (List SummaryRow) :=
  df.mapM fun r => do
    let s ← toDatetimeLocalized r.date r.fromGMT
    let e ← toDatetimeLocalized r.date r.toGMT
    pure { r with spStart := some s, spEnd := some e }

/-! ### `get_bids_by_provider_event` -/

/-- The four-part groupby key of the first grouping stage; the timestamp
columns are always present (`some _`) when this is evaluated, since the
grouping runs on the output of `_append_settlement_periods`. -/
def bidKey (r : BidRow) : String × String × Int × Int :=
  (r.date, r.provider, r.spStart.getD 0, r.spEnd.getD 0)

/-- One row of `bids_by_provider_settlement_period`: the groupby keys plus
every `BID_AGGREGATIONS` column summed over the group. -/
structure BidsBySpRow where
  date : String
  provider : String
  spStart : Int
  spEnd : Int
  vals : String → ℚ

/-- `bids_by_provider_settlement_period`: the normalised bids grouped by
`(Date, DFS Provider, settlement_period_start, settlement_period_end)`,
every `BID_AGGREGATIONS` column summed over each group. -/
def bids_by_provider_stage1 (nb : List BidRow) : List BidsBySpRow :=
  (sortedUniqueKeys bidKeyEmbed (nb.map bidKey)).map fun k =>
    { date := k.1, provider := k.2.1, spStart := k.2.2.1, spEnd := k.2.2.2,
      vals := fun c =>
        (((nb.filter fun r => decide (bidKey r = k)).map fun r => r.vals c)).sum }

/-- The second grouping stage: group `bids_by_provider_stage1` by
`(Date, DFS Provider)` and sum the `D0 Total` column. -/
def bids_by_provider_stages (nb : List BidRow) : List ((String × String) × ℚ) :=
  (sortedUniqueKeys pairKeyEmbed
    ((bids_by_provider_stage1 nb).map fun r => (r.date, r.provider))).map fun k =>
    (k, ((((bids_by_provider_stage1 nb).filter fun r =>
      decide ((r.date, r.provider) = k)).map fun r => r.vals "D0 Total")).sum)

/-- `get_bids_by_provider_event`: normalise the bids (in place), group by
`(Date, DFS Provider, settlement_period_start, settlement_period_end)`
summing the `BID_AGGREGATIONS` columns, then group that result by
`(Date, DFS Provider)` and sum `D0 Total`, giving one scalar per provider
per event date. -/
def get_bids_by_provider_event (bids : List BidRow) :
    Option (List ((String × String) × ℚ)) :=
  (append_settlement_periods_bids bids).map bids_by_provider_stages

/-! ### `get_event_summary` -/

/-- One row of the Event Summary: the merge of a (renamed, normalised)
requirement row and a normalised summary row that agree on all six join
keys, plus the three derived columns. -/
structure EventSummaryRow where
  date : String
  fromGMT : String
  toGMT : String
  spStart : Option Int
  spEnd : Option Int
  eventType : String
  requiredMw : ℚ               -- "DFS Required (MW)"
  procuredDayAheadMw : ℚ       -- "DFS Procured (MW)"
  settledVolume : ℚ
  settledCost : ℚ
  d0ProcuredMw : ℚ             -- "D0 DFS Procured (MW)"
  settledPrice : FVal          -- "Settled Price (£/MW)"
  flexSettledMwh : ℚ           -- "flex_settled_mwh"
  flexProcuredMwh : ℚ          -- "flex_procured_mwh"
deriving DecidableEq

/-- The merged row for a requirement/summary pair, with the derived settled
price (IEEE division: NaN or ±inf when the settled volume is zero) and the
MW→MWh half-hour conversions. -/
def mkEventSummaryRow (r : ReqRow) (s : SummaryRow) : EventSummaryRow :=
  { date := r.date, fromGMT := r.fromGMT, toGMT := r.toGMT,
    spStart := r.spStart, spEnd := r.spEnd, eventType := r.eventType,
    requiredMw := r.requiredMw, procuredDayAheadMw := r.procuredDayAheadMw,
    settledVolume := s.settledVolume, settledCost := s.settledCost,
    d0ProcuredMw := s.d0ProcuredMw,
    settledPrice := fdiv s.settledCost s.settledVolume,
    flexSettledMwh := s.settledVolume / 2,
    flexProcuredMwh := s.d0ProcuredMw / 2 }

/-- The six-key match condition of the `pd.merge` in `get_event_summary`. -/
def esJoinKeysMatch (r : ReqRow) (s : SummaryRow) : Prop :=
  s.date = r.date ∧ s.fromGMT = r.fromGMT ∧ s.toGMT = r.toGMT ∧
  s.spStart = r.spStart ∧ s.spEnd = r.spEnd ∧ s.eventType = r.eventType

instance (r : ReqRow) (s : SummaryRow) : Decidable (esJoinKeysMatch r s) :=
  inferInstanceAs (Decidable (_ ∧ _))

/-- `get_event_summary`: rename the requirement columns, normalise both
tables, inner-merge on the six keys (for each left row, in order, the
matching right rows in order — pandas inner-merge row production), then
derive settled price and the settled/procured energies. -/
def get_event_summary (requirements : List RawReqRow)
    (summary : List SummaryRow) : Option (List EventSummaryRow) := do
  let reqN ← append_settlement_periods_req (requirements.map renameRequirements)
  let sumN ← append_settlement_periods_summary summary
  pure (reqN.flatMap fun r =>
    (sumN.filter fun s => decide (esJoinKeysMatch r s)).map fun s =>
      mkEventSummaryRow r s)

/-! ### `get_metrics_by_dfs_event` -/

/-- The provider-count loop of `get_metrics_by_dfs_event`: iterate the sorted
distinct event dates (`bids.groupby("Date")` iterates groups in ascending key
order), take the set of distinct providers bidding each date, fold the running
union `cumunique`, and record `(date, len(set), len(cumunique))`. -/
def provider_metrics_go (bids : List BidRow) :
    List String → Finset String → List (String × Nat × Nat)
  | [], _ => []
  | d :: ds, cumunique =>
    let dfs_providers :=
      ((bids.filter fun r => decide (r.date = d)).map (·.provider)).toFinset
    let cumunique' := cumunique ∪ dfs_providers
    (d, dfs_providers.card, cumunique'.card) :: provider_metrics_go bids ds cumunique'

/-- `dfs_provider_metrics`: per date, the number of distinct DFS providers
that day and the size of the running union so far
(`num_dfs_providers`, `num_dfs_providers_cumulative`). -/
def dfs_provider_metrics (bids : List BidRow) : List (String × Nat × Nat) :=
  provider_metrics_go bids (sortedUniqueKeys String.toList (bids.map (·.date))) ∅

/-- One row of `event_metrics` (the §4.4(b) aggregate of the Event Summary
grouped by date), including the three appended `*_cumulative` columns. -/
structure EventMetricsRow where
  spStart : Option Int         -- "settlement_period_start": "first"
  spEnd : Option Int           -- "settlement_period_end": "last"
  eventType : String           -- "dfs_event_type": "first"
  flexSettledMwh : ℚ           -- "flex_settled_mwh": "sum"
  flexProcuredMwh : ℚ          -- "flex_procured_mwh": "sum"
  requiredMw : ℚ               -- "dfs_required_mw": "median"
  procuredDayAheadMw : ℚ       -- "dfs_procured_day_ahead_mw": "median"
  procuredMw : ℚ               -- "dfs_procured_mw": "median"
  durationHours : ℚ            -- count of "From (GMT)" ÷ 2
  durationHoursCum : ℚ         -- "duration_hours_cumulative"
  flexSettledCum : ℚ           -- "flex_settled_mwh_cumulative"
  flexProcuredCum : ℚ          -- "flex_procured_mwh_cumulative"
deriving DecidableEq

/-- The date-`d` group of the Event Summary (`event_summary.groupby("Date")`
group, in original row order). -/
def perGroup (es : List EventSummaryRow) (d : String) : List EventSummaryRow :=
  es.filter fun r => decide (r.date = d)

/-- `duration_hours` of event date `d`: the group's `From (GMT)` count ÷ 2. -/
def perDuration (es : List EventSummaryRow) (d : String) : ℚ :=
  ((perGroup es d).length : ℚ) / 2

/-- `flex_settled_mwh` aggregate ("sum") of event date `d`. -/
def perSettled (es : List EventSummaryRow) (d : String) : ℚ :=
  ((perGroup es d).map (·.flexSettledMwh)).sum

/-- `flex_procured_mwh` aggregate ("sum") of event date `d`. -/
def perProcured (es : List EventSummaryRow) (d : String) : ℚ :=
  ((perGroup es d).map (·.flexProcuredMwh)).sum

/-- The `event_metrics` row for event date `d`: the `event_aggregations`
dict applied to the date's group, with the three cumulative columns passed
in as the running-sum state `cd`/`cs`/`cp` (their values after folding this
date in). -/
def event_agg_row (es : List EventSummaryRow) (d : String) (cd cs cp : ℚ) :
    EventMetricsRow :=
  { spStart := ((perGroup es d).map (·.spStart)).headD none,
    spEnd := ((perGroup es d).map (·.spEnd)).getLastD none,
    eventType := ((perGroup es d).map (·.eventType)).headD "",
    flexSettledMwh := perSettled es d, flexProcuredMwh := perProcured es d,
    requiredMw := medianQ ((perGroup es d).map (·.requiredMw)),
    procuredDayAheadMw := medianQ ((perGroup es d).map (·.procuredDayAheadMw)),
    procuredMw := medianQ ((perGroup es d).map (·.d0ProcuredMw)),
    durationHours := perDuration es d,
    durationHoursCum := cd, flexSettledCum := cs, flexProcuredCum := cp }

/-- The per-date aggregation of `event_metrics` over the sorted distinct
dates, carrying the running cumulative sums (the `.cumsum()` columns) as
explicit fold state. -/
def event_metrics_go (es : List EventSummaryRow) :
    List String → ℚ → ℚ → ℚ → List (String × EventMetricsRow)
  | [], _, _, _ => []
  | d :: ds, cumDur, cumSettled, cumProcured =>
    let cd := cumDur + perDuration es d
    let cs := cumSettled + perSettled es d
    let cp := cumProcured + perProcured es d
    (d, event_agg_row es d cd cs cp) :: event_metrics_go es ds cd cs cp

/-- `event_metrics`: the Event Summary (whose columns `DFS Required (MW)`,
`DFS Procured (MW)`, `D0 DFS Procured (MW)` have been renamed to
`dfs_required_mw`, `dfs_procured_day_ahead_mw`, `dfs_procured_mw` — a pure
relabelling in this typed embedding) grouped by `Date` with the
`event_aggregations` dict, `duration_hours = count ÷ 2`, and the three
cumulative columns. -/
def event_metrics (es : List EventSummaryRow) : List (String × EventMetricsRow) :=
  event_metrics_go es (sortedUniqueKeys String.toList (es.map (·.date))) 0 0 0

/-- One row of the final Event Metrics table.  `pd.concat(..., axis=1)`
aligns the provider table and the event table on the union of their date
indexes; a date missing from one side leaves that side's columns NaN, which
the `Option` components model. -/
structure MetricsRow where
  providerPart : Option (Nat × Nat)  -- (num_dfs_providers, num_dfs_providers_cumulative)
  eventPart : Option EventMetricsRow
deriving DecidableEq

/-- `get_metrics_by_dfs_event`: provider counts per date, event aggregates
per date, concatenated side by side on the (sorted) union of dates. -/
def get_metrics_by_dfs_event (bids : List BidRow) (es : List EventSummaryRow) :
    List (String × MetricsRow) :=
  let pm := dfs_provider_metrics bids
  let em := event_metrics es
  let dates := sortedUniqueKeys String.toList (pm.map (·.1) ++ em.map (·.1))
  dates.map fun d => (d, { providerPart := pm.lookup d, eventPart := em.lookup d })

/-! ### `_get_event_by_geometry` and `get_regional_flex` -/

/-- `_get_forecast_type`: `"Same Day"` / `"Day Ahead"` for known forecast
columns (Python substring test `"D0" in variable`), `None` otherwise. -/
def get_forecast_type (v : String) : Option String :=
  if v ∈ forecast_cols then
    if containsSub "D0".toList v.toList then some "Same Day"
    else some "Day Ahead"
  else none

/-- The `dno_region_name` column:
`variable.str.replace("D0 ", "").map(DFS_NAME_TO_DNO_NAME_MAPPING.get)`;
`none` models the `None`/NaN a missing dict key produces. -/
def dno_region_name_of (v : String) : Option String :=
  DFS_NAME_TO_DNO_NAME_MAPPING.lookup (pyReplace v "D0 " "")

/-- One row of the long-form `event_by_geography` table. -/
structure GeoRow where
  date : String
  varName : String             -- "variable"
  value : ℚ
  forecastType : Option String
  dnoRegionName : Option String
deriving DecidableEq

/-- The stacked row `_get_event_by_geometry` produces for event date `d` and
forecast column `c`: the column is summed over providers per
`(Date, From (GMT))` group of that date, those per-settlement-period sums
are averaged over the date's settlement periods, and the row is tagged with
its forecast type and DNO region code. -/
def geo_row (bids : List BidRow) (d c : String) : GeoRow :=
  let dayRows := bids.filter fun r => decide (r.date = d)
  let froms := sortedUniqueKeys String.toList (dayRows.map (·.fromGMT))
  { date := d, varName := c,
    value :=
      ((froms.map fun f =>
        (((dayRows.filter fun r => decide (r.fromGMT = f)).map
          fun r => r.vals c)).sum).sum) / (froms.length : ℚ),
    forecastType := get_forecast_type c,
    dnoRegionName := dno_region_name_of c }

/-- `_get_event_by_geometry`: sum every `BID_AGGREGATIONS` column over
providers per `(Date, From (GMT))`, average those sums over the settlement
periods of each date, stack into long form (per sorted date, one row per
column in column order), then tag each row with its forecast type and DNO
region code. -/
def get_event_by_geometry (bids : List BidRow) : List GeoRow :=
  (sortedUniqueKeys String.toList (bids.map (·.date))).flatMap fun d =>
    bid_agg_cols.map (geo_row bids d)

/-- One row of the DNO-regions boundary table: the `Name` key column the
merges join on, and the remaining columns (display name, geometry, …)
abstracted as an opaque payload string. -/
structure DnoRegion where
  name : String
  payload : String
deriving DecidableEq

/-- One row of `day_ahead_flex_by_event_day_region` (per event date and
region). -/
structure RegionalFlexRow where
  name : String                -- "Name" (from the boundary table)
  payload : String
  date : String
  varName : String             -- "variable"
  value : ℚ
  dnoRegionName : String
  durationHours : ℚ
  flexMwh : ℚ
deriving DecidableEq

/-- One row of `day_ahead_flex_cumulative_by_region`. -/
structure RegionalCumRow where
  name : String
  payload : String
  value : ℚ                    -- median of the per-event values, rounded
  flexMwh : ℚ                  -- sum of the per-event energies, rounded
deriving DecidableEq

/-- `day_ahead_flex_by_event_day_region` (the per-event-date, per-region
table): boundary rows inner-merged against the day-ahead rows of
`_get_event_by_geometry` on `Name == dno_region_name`, indexed by date,
joined with the `duration_hours` column by date, and extended with
`flex_mwh = value * duration_hours`. -/
def day_ahead_flex_by_event_day_region (dno_regions : List DnoRegion)
    (bids : List BidRow) (dfs_metrics_duration : List (String × ℚ)) :
    List RegionalFlexRow :=
  (dno_regions.flatMap fun reg =>
    ((get_event_by_geometry bids).filter fun e =>
      decide (e.forecastType = some "Day Ahead" ∧
        e.dnoRegionName = some reg.name)).map fun e => (reg, e)).filterMap
    fun p =>
      (dfs_metrics_duration.lookup p.2.date).map fun dur =>
        { name := p.1.name, payload := p.1.payload, date := p.2.date,
          varName := p.2.varName, value := p.2.value,
          dnoRegionName := p.1.name, durationHours := dur,
          flexMwh := p.2.value * dur }

/-- `day_ahead_flex_cumulative_by_region`: the per-(date, region) table
grouped by `dno_region_name` with `{"value": "median", "flex_mwh": "sum"}`,
`.round()`ed, and inner-merged back against the boundary table. -/
def day_ahead_flex_cumulative_by_region (dno_regions : List DnoRegion)
    (bids : List BidRow) (dfs_metrics_duration : List (String × ℚ)) :
    List RegionalCumRow :=
  dno_regions.flatMap fun reg =>
    (((sortedUniqueKeys String.toList
      ((day_ahead_flex_by_event_day_region dno_regions bids
        dfs_metrics_duration).map (·.dnoRegionName))).map fun k =>
      (k, roundQ (medianQ (((day_ahead_flex_by_event_day_region dno_regions
            bids dfs_metrics_duration).filter fun p =>
            decide (p.dnoRegionName = k)).map (·.value))),
          roundQ ((((day_ahead_flex_by_event_day_region dno_regions bids
            dfs_metrics_duration).filter fun p =>
            decide (p.dnoRegionName = k)).map (·.flexMwh)).sum))).filter
      fun c => decide (c.1 = reg.name)).map fun c =>
      { name := reg.name, payload := reg.payload,
        value := c.2.1, flexMwh := c.2.2 }

/-- `get_regional_flex`: the third argument is the `duration_hours` column
of the Event Metrics table (`dfs_metrics["duration_hours"]`, keyed by its
date index), the only part of `dfs_metrics` the function reads.  Returns
`(day_ahead_flex_cumulative_by_region, day_ahead_flex_by_event_day_region)`. -/
def get_regional_flex (dno_regions : List DnoRegion) (bids : List BidRow)
    (dfs_metrics_duration : List (String × ℚ)) :
    List RegionalCumRow × List RegionalFlexRow :=
  (day_ahead_flex_cumulative_by_region dno_regions bids dfs_metrics_duration,
   day_ahead_flex_by_event_day_region dno_regions bids dfs_metrics_duration)

/-! ### Caller-visible effects on the argument tables

Python semantics traced from the source: `df.pipe(f)` passes the very frame
object `df` to `f`; `_append_settlement_periods` assigns two columns on that
object in place and returns it; `df.rename(columns=...)` returns a fresh
copy; `groupby`/`agg`/`merge`/`query`/`map` all produce new frames and leave
their inputs untouched.  The `*_after` definitions below give the state of
each caller-supplied table after the call returns. -/

/-- State of the caller's `bids` table after `get_bids_by_provider_event`:
`bids.pipe(_append_settlement_periods)` hands the caller's own frame to the
normaliser, which assigns the two timestamp columns on it in place. -/
def get_bids_by_provider_event_bids_after (bids : List BidRow) :
    Option (List BidRow) :=
  append_settlement_periods_bids bids

/-- States of the caller's `requirements` and `summary` tables after
`get_event_summary`: the requirement frame is first copied by `rename`
(so only the copy is normalised in place), while `summary.pipe(...)`
normalises the caller's own summary frame in place. -/
def get_event_summary_args_after (requirements : List RawReqRow)
    (summary : List SummaryRow) :
    Option (List RawReqRow × List SummaryRow) := do
  let _ ← append_settlement_periods_req (requirements.map renameRequirements)
  let sumN ← append_settlement_periods_summary summary
  pure (requirements, sumN)

/-- States of the caller's tables after `get_metrics_by_dfs_event`: the body
only applies `rename`/`groupby`/`agg`/`concat` to the inputs and assigns
columns on derived frames (`event_metrics`), so both arguments are left
untouched. -/
def get_metrics_by_dfs_event_args_after (bids : List BidRow)
    (es : List EventSummaryRow) : List BidRow × List EventSummaryRow :=
  (bids, es)

/-- States of the caller's tables after `get_regional_flex`: the body only
applies `groupby`/`agg`/`stack`/`merge`/`query` to the inputs and assigns
columns on derived frames, so all three arguments are left untouched. -/
def get_regional_flex_args_after (dno_regions : List DnoRegion)
    (bids : List BidRow) (dfs_metrics_duration : List (String × ℚ)) :
    List DnoRegion × List BidRow × List (String × ℚ) :=
  (dno_regions, bids, dfs_metrics_duration)

/-! ### Unit conversion (§4.6) -/

/-- Modelled from the spec: the unit-conversion utility
(`ENERGY_CONVERSIONS` in the transform module) is referenced by the
rendering layer (`convert_units_energy` import in `render.py`) and by
`tests/demand_flexibility_service/test_transform.py`, but its definition is
not among the provided source files.  Per §4.6 each known unit label maps to
its value in the common base unit watt-hours: the SI prefixes, one EV charge
= 40 kWh, one large cup of tea = 3 kW × 52 s ≈ 43.3 Wh, one home-hour = an
average household hourly consumption figure (≈ 331 Wh, from an annual
≈ 2900 kWh).  The tests pin down only that the three fun metrics are keys
and that a cup of tea is below an EV charge. -/
def ENERGY_CONVERSIONS : List (String × ℚ) := [
  ("Wh", 1),
  ("kWh", 1000),
  ("MWh", 1000000),
  ("GWh", 1000000000),
  ("EV Charge", 40000),
  ("Cup of Tea", 3000 * 52 / 3600),
  ("Home per hour", 331)]

/-- Modelled from the spec: `convert_units_energy(value, from_units,
to_units)` converts through the watt-hours base unit —
`value * ENERGY_CONVERSIONS[from_units] / ENERGY_CONVERSIONS[to_units]` —
and fails (`none`, modelling the lookup error) when either unit label is
unknown. -/
def convert_units_energy (value : ℚ) (from_units to_units : String) :
    Option ℚ := do
  let f ← ENERGY_CONVERSIONS.lookup from_units
  let t ← ENERGY_CONVERSIONS.lookup to_units
  pure (value * f / t)

/-! ### Helper lemmas -/

theorem lookup_mem_snd {α β : Type} [BEq α] :
    ∀ {l : List (α × β)} {u : α} {f : β}, l.lookup u = some f → f ∈ l.map Prod.snd := by
  intro l
  induction l with
  | nil => intro u f h; cases h
  | cons p t ih =>
    intro u f h
    obtain ⟨k, b⟩ := p
    rw [List.lookup] at h
    cases huk : u == k with
    | true => rw [huk] at h; injection h with h; subst h; exact List.mem_cons_self _ _
    | false => rw [huk] at h; exact List.mem_cons_of_mem _ (ih h)

theorem energy_conversions_lookup_ne_zero {u : String} {f : ℚ}
    (h : ENERGY_CONVERSIONS.lookup u = some f) : f ≠ 0 := by
  have hm := lookup_mem_snd h
  simp only [ENERGY_CONVERSIONS, List.map_cons, List.map_nil, List.mem_cons,
    List.not_mem_nil, or_false] at hm
  rcases hm with rfl|rfl|rfl|rfl|rfl|rfl|rfl <;> norm_num

/-- C9: for every numeric energy quantity and every pair of known unit
labels, converting there and back through the watt-hours base unit returns
the original quantity (exactly, in this rational embedding). -/
theorem c9_unit_conversion_round_trip (x y : ℚ) (A B : String)
    (h : convert_units_energy x A B = some y) :
    convert_units_energy y B A = some x := by
  unfold convert_units_energy at h ⊢
  cases hA : ENERGY_CONVERSIONS.lookup A with
  | none => rw [hA] at h; simp at h
  | some f =>
    cases hB : ENERGY_CONVERSIONS.lookup B with
    | none => rw [hA, hB] at h; simp at h
    | some t =>
      rw [hA, hB] at h
      simp only [Option.bind_eq_bind, Option.some_bind, Option.pure_def,
        Option.some_inj] at h ⊢
      have hf := energy_conversions_lookup_ne_zero hA
      have ht := energy_conversions_lookup_ne_zero hB
      subst h
      field_simp

theorem c9_unit_conversion_round_trip_witness :
    convert_units_energy 3 "kWh" "Wh" = some 3000 ∧
    convert_units_energy 3000 "Wh" "kWh" = some 3 := by
  have h1 : convert_units_energy 3 "kWh" "Wh" = some 3000 := by
    unfold convert_units_energy
    rw [show ENERGY_CONVERSIONS.lookup "kWh" = some 1000 from by decide,
        show ENERGY_CONVERSIONS.lookup "Wh" = some 1 from by decide]
    simp only [Option.bind_eq_bind, Option.some_bind, Option.pure_def,
      Option.some_inj]
    norm_num
  exact ⟨h1, c9_unit_conversion_round_trip 3 3000 "kWh" "Wh" h1⟩

theorem geo_row_varName (bids : List BidRow) (d c : String) :
    (geo_row bids d c).varName = c := rfl

theorem geo_row_dnoRegionName (bids : List BidRow) (d c : String) :
    (geo_row bids d c).dnoRegionName = dno_region_name_of c := rfl

theorem mem_get_event_by_geometry {bids : List BidRow} {g : GeoRow} :
    g ∈ get_event_by_geometry bids ↔
      ∃ d ∈ sortedUniqueKeys String.toList (bids.map (·.date)),
        ∃ c ∈ bid_agg_cols, g = geo_row bids d c := by
  simp only [get_event_by_geometry, List.mem_flatMap, List.mem_map]
  constructor
  · rintro ⟨d, hd, c, hc, rfl⟩; exact ⟨d, hd, c, hc, rfl⟩
  · rintro ⟨d, hd, c, hc, rfl⟩; exact ⟨d, hd, c, hc, rfl⟩

theorem get_event_by_geometry_region_eq {bids : List BidRow} {g : GeoRow}
    (h : g ∈ get_event_by_geometry bids) :
    g.dnoRegionName = dno_region_name_of g.varName := by
  obtain ⟨d, -, c, -, rfl⟩ := mem_get_event_by_geometry.mp h
  rfl

theorem mem_get_regional_flex_per {regions : List DnoRegion} {bids : List BidRow}
    {metrics : List (String × ℚ)} {p : RegionalFlexRow} :
    p ∈ (get_regional_flex regions bids metrics).2 ↔
      ∃ reg ∈ regions, ∃ e ∈ get_event_by_geometry bids,
        (e.forecastType = some "Day Ahead" ∧ e.dnoRegionName = some reg.name) ∧
        ∃ dur, metrics.lookup e.date = some dur ∧
          p = { name := reg.name, payload := reg.payload, date := e.date,
                varName := e.varName, value := e.value,
                dnoRegionName := reg.name, durationHours := dur,
                flexMwh := e.value * dur } := by
  simp only [get_regional_flex, day_ahead_flex_by_event_day_region,
    List.mem_filterMap, List.mem_flatMap,
    List.mem_map, List.mem_filter, Option.map_eq_some', decide_eq_true_eq]
  constructor
  · rintro ⟨a, ⟨reg, hreg, e, ⟨he, hq⟩, rfl⟩, dur, hdur, rfl⟩
    exact ⟨reg, hreg, e, he, hq, dur, hdur, rfl⟩
  · rintro ⟨reg, hreg, e, he, hq, dur, hdur, rfl⟩
    exact ⟨(reg, e), ⟨reg, hreg, e, ⟨he, hq⟩, rfl⟩, dur, hdur, rfl⟩

/-- C10: the same-day North Wales forecast column is spelled without a comma
in `_forecast_cols` while the region-code lookup table keys the comma
spelling, so after stripping the `"D0 "` marker that column's region lookup
yields no code — its rows are tagged `Same Day` with no `dno_region_name`
and can never enter the region merge of `get_regional_flex` — whereas the
day-ahead column for the same region maps to code `"_D"`. -/
theorem c10_d0_north_wales_column_mismatch :
    dno_region_name_of "D0 North Wales Merseyside and Cheshire" = none ∧
    get_forecast_type "D0 North Wales Merseyside and Cheshire" = some "Same Day" ∧
    dno_region_name_of "North Wales, Merseyside and Cheshire" = some "_D" ∧
    (∀ (bids : List BidRow), ∀ g ∈ get_event_by_geometry bids,
      g.varName = "D0 North Wales Merseyside and Cheshire" →
        g.dnoRegionName = none) ∧
    (∀ (regions : List DnoRegion) (bids : List BidRow)
      (metrics : List (String × ℚ)),
      ∀ p ∈ (get_regional_flex regions bids metrics).2,
        p.varName ≠ "D0 North Wales Merseyside and Cheshire") := by
  refine ⟨by decide, by decide, by decide, ?_, ?_⟩
  · intro bids g hg hvar
    rw [get_event_by_geometry_region_eq hg, hvar]
    decide
  · intro regions bids metrics p hp hvar
    obtain ⟨reg, -, e, he, ⟨-, hcode⟩, dur, -, rfl⟩ :=
      mem_get_regional_flex_per.mp hp
    have : e.dnoRegionName = none := by
      rw [get_event_by_geometry_region_eq he]
      have : e.varName = "D0 North Wales Merseyside and Cheshire" := hvar
      rw [this]
      decide
    rw [this] at hcode
    cases hcode

def c10Bids : List BidRow :=
  [{ date := "2023-01-01", provider := "P", fromGMT := "17:00",
     toGMT := "17:30", eventType := "LIVE", vals := fun _ => 0 }]

theorem c10_d0_north_wales_column_mismatch_witness :
    geo_row c10Bids "2023-01-01" "D0 North Wales Merseyside and Cheshire" ∈
      get_event_by_geometry c10Bids ∧
    (geo_row c10Bids "2023-01-01"
      "D0 North Wales Merseyside and Cheshire").dnoRegionName = none := by
  have hmem : geo_row c10Bids "2023-01-01"
      "D0 North Wales Merseyside and Cheshire" ∈ get_event_by_geometry c10Bids := by
    rw [get_event_by_geometry,
      show sortedUniqueKeys String.toList (c10Bids.map (·.date)) = ["2023-01-01"]
        from by decide]
    simp only [List.flatMap_cons, List.flatMap_nil, List.append_nil]
    exact List.mem_map_of_mem _
      (by decide : "D0 North Wales Merseyside and Cheshire" ∈ bid_agg_cols)
  exact ⟨hmem, c10_d0_north_wales_column_mismatch.2.2.2.1 c10Bids _ hmem rfl⟩

theorem mapM_option_forall₂ {α β : Type} {f : α → Option β} :
    ∀ {l : List α} {l' : List β}, l.mapM f = some l' →
      List.Forall₂ (fun a b => f a = some b) l l' := by
  intro l
  induction l with
  | nil =>
    intro l' h
    simp only [List.mapM_nil, Option.pure_def, Option.some_inj] at h
    subst h
    exact List.Forall₂.nil
  | cons a t ih =>
    intro l' h
    rw [List.mapM_cons] at h
    cases hfa : f a with
    | none => rw [hfa] at h; simp at h
    | some b =>
      rw [hfa] at h
      cases hft : t.mapM f with
      | none => rw [hft] at h; simp at h
      | some bs =>
        rw [hft] at h
        simp only [Option.bind_eq_bind, Option.some_bind, Option.pure_def,
          Option.some_inj] at h
        subst h
        exact List.Forall₂.cons hfa (ih hft)

theorem forall₂_exists_left {α β : Type} {R : α → β → Prop} :
    ∀ {l : List α} {l' : List β}, List.Forall₂ R l l' →
      ∀ b ∈ l', ∃ a ∈ l, R a b := by
  intro l l' h
  induction h with
  | nil => intro b hb; cases hb
  | cons hab _ ih =>
    intro b hb
    rcases List.mem_cons.mp hb with rfl | hb'
    · exact ⟨_, List.mem_cons_self _ _, hab⟩
    · obtain ⟨a, ha, hr⟩ := ih b hb'
      exact ⟨a, List.mem_cons_of_mem _ ha, hr⟩

theorem toDatetimeLocalized_eq {d t : String} {s : Int}
    (h : toDatetimeLocalized d t = some s) :
    ∃ dd tt, parseDate d = some dd ∧ parseTimeOfDay t = some tt ∧
      s = ((dd * 1440 + tt : Nat) : Int) := by
  unfold toDatetimeLocalized at h
  cases hd : parseDate d with
  | none => rw [hd] at h; simp at h
  | some dd =>
    cases ht : parseTimeOfDay t with
    | none => rw [hd, ht] at h; simp at h
    | some tt =>
      rw [hd, ht] at h
      simp only [Option.bind_eq_bind, Option.some_bind, Option.pure_def,
        Option.some_inj] at h
      exact ⟨dd, tt, rfl, rfl, h.symm⟩

theorem append_summary_row_eq {a r : SummaryRow}
    (h : (do
        let s ← toDatetimeLocalized a.date a.fromGMT
        let e ← toDatetimeLocalized a.date a.toGMT
        pure { a with spStart := some s, spEnd := some e } :
        Option SummaryRow) = some r) :
    ∃ s e, toDatetimeLocalized a.date a.fromGMT = some s ∧
      toDatetimeLocalized a.date a.toGMT = some e ∧
      r = { a with spStart := some s, spEnd := some e } := by
  cases hs : toDatetimeLocalized a.date a.fromGMT with
  | none => rw [hs] at h; simp at h
  | some s =>
    cases he : toDatetimeLocalized a.date a.toGMT with
    | none => rw [hs, he] at h; simp at h
    | some e =>
      rw [hs, he] at h
      simp only [Option.bind_eq_bind, Option.some_bind, Option.pure_def,
        Option.some_inj] at h
      exact ⟨s, e, rfl, rfl, h.symm⟩

/-- C7 (amended): in the table returned by the Settlement Period Normaliser,
a row's derived end timestamp is at or after its start timestamp **iff** the
row's `To (GMT)` time-of-day is at or after its `From (GMT)` time-of-day:
both timestamps combine the same `Date`, so a window crossing midnight
(`To` earlier in the day than `From`) yields `end < start`. -/
theorem c7_normalizer_end_ge_start_iff (df out : List SummaryRow)
    (h : append_settlement_periods_summary df = some out) :
    ∀ r ∈ out, ∀ tf tt, parseTimeOfDay r.fromGMT = some tf →
      parseTimeOfDay r.toGMT = some tt →
      ∃ s e, r.spStart = some s ∧ r.spEnd = some e ∧ (s ≤ e ↔ tf ≤ tt) := by
  intro r hr tf tt htf htt
  obtain ⟨a, -, hfa⟩ :=
    forall₂_exists_left (mapM_option_forall₂ h) r hr
  obtain ⟨s, e, hs, he, rfl⟩ := append_summary_row_eq hfa
  obtain ⟨dd, tf', hdd, htf', rfl⟩ := toDatetimeLocalized_eq hs
  obtain ⟨dd₂, tt', hdd₂, htt', rfl⟩ := toDatetimeLocalized_eq he
  have hdd' : dd₂ = dd := by rw [hdd] at hdd₂; exact (Option.some.inj hdd₂).symm
  subst hdd'
  have htfeq : tf' = tf := by
    have : parseTimeOfDay a.fromGMT = some tf := htf
    rw [htf'] at this; exact Option.some.inj this
  have htteq : tt' = tt := by
    have : parseTimeOfDay a.toGMT = some tt := htt
    rw [htt'] at this; exact Option.some.inj this
  subst htfeq; subst htteq
  refine ⟨_, _, rfl, rfl, ?_⟩
  rw [Int.ofNat_le]
  exact ⟨fun hle => Nat.le_of_add_le_add_left hle,
    fun hle => Nat.add_le_add_left hle _⟩

def c7BadSum : List SummaryRow :=
  [{ date := "2023-01-01", fromGMT := "17:00", toGMT := "16:30",
     eventType := "LIVE", settledVolume := 0, settledCost := 0,
     d0ProcuredMw := 0 }]

def c7BadOut : SummaryRow :=
  { date := "2023-01-01", fromGMT := "17:00", toGMT := "16:30",
    eventType := "LIVE", settledVolume := 0, settledCost := 0,
    d0ProcuredMw := 0, spStart := some 1211906460, spEnd := some 1211906430 }

/-- C7 (counterexample): a parseable row whose `To (GMT)` is earlier in the
day than its `From (GMT)` normalises to `end < start`, refuting
"`end >= start` for every row of every valid input". -/
theorem c7_normalizer_end_ge_start_counterexample :
    append_settlement_periods_summary c7BadSum = some [c7BadOut] ∧
    c7BadOut.spStart = some 1211906460 ∧ c7BadOut.spEnd = some 1211906430 ∧
    ¬ ((1211906460 : Int) ≤ 1211906430) := by
  refine ⟨by decide, rfl, rfl, by decide⟩

def c7GoodSum : List SummaryRow :=
  [{ date := "2023-01-01", fromGMT := "17:00", toGMT := "17:30",
     eventType := "LIVE", settledVolume := 0, settledCost := 0,
     d0ProcuredMw := 0 }]

def c7GoodOut : SummaryRow :=
  { date := "2023-01-01", fromGMT := "17:00", toGMT := "17:30",
    eventType := "LIVE", settledVolume := 0, settledCost := 0,
    d0ProcuredMw := 0, spStart := some 1211906460, spEnd := some 1211906490 }

theorem c7_normalizer_end_ge_start_iff_witness :
    append_settlement_periods_summary c7GoodSum = some [c7GoodOut] ∧
    c7GoodOut.spStart = some 1211906460 ∧ c7GoodOut.spEnd = some 1211906490 ∧
    (1211906460 : Int) ≤ 1211906490 := by
  refine ⟨by decide, rfl, rfl, ?_⟩
  obtain ⟨s, e, hs, he, hiff⟩ :=
    c7_normalizer_end_ge_start_iff c7GoodSum [c7GoodOut] (by decide)
      c7GoodOut (List.mem_singleton.mpr rfl) 1020 1050 (by decide) (by decide)
  have hs' : s = 1211906460 := Option.some.inj hs.symm
  have he' : e = 1211906490 := Option.some.inj he.symm
  rw [← hs', ← he']
  exact hiff.mpr (by norm_num)

theorem get_event_summary_eq {requirements : List RawReqRow}
    {summary : List SummaryRow} {reqN : List ReqRow} {sumN : List SummaryRow}
    (h1 : append_settlement_periods_req (requirements.map renameRequirements) =
      some reqN)
    (h2 : append_settlement_periods_summary summary = some sumN) :
    get_event_summary requirements summary =
      some (reqN.flatMap fun r =>
        (sumN.filter fun s => decide (esJoinKeysMatch r s)).map fun s =>
          mkEventSummaryRow r s) := by
  unfold get_event_summary
  rw [h1, h2]
  rfl

/-- C8 (amended): `get_event_summary` cannot fail on account of a zero
settled volume — whenever the two inputs normalise, it returns a table —
and in any returned row with zero settled volume the derived settled price
is the IEEE quotient: NaN when the settled cost is also zero, and a signed
infinity otherwise; the value is stored in the row (propagated), never
raised as an error. -/
theorem c8_zero_settled_volume_price (requirements : List RawReqRow)
    (summary : List SummaryRow) :
    (∀ reqN sumN,
      append_settlement_periods_req (requirements.map renameRequirements) =
        some reqN →
      append_settlement_periods_summary summary = some sumN →
      (get_event_summary requirements summary).isSome = true) ∧
    (∀ out, get_event_summary requirements summary = some out →
      ∀ row ∈ out, row.settledVolume = 0 →
        row.settledPrice = if row.settledCost = 0 then FVal.nan
          else if 0 < row.settledCost then FVal.posInf else FVal.negInf) := by
  constructor
  · intro reqN sumN h1 h2
    rw [get_event_summary_eq h1 h2]
    rfl
  · intro out hout row hrow hvol
    have hmem : row ∈ out := hrow
    unfold get_event_summary at hout
    cases h1 : append_settlement_periods_req (requirements.map renameRequirements) with
    | none => rw [h1] at hout; simp at hout
    | some reqN =>
      cases h2 : append_settlement_periods_summary summary with
      | none => rw [h1, h2] at hout; simp at hout
      | some sumN =>
        rw [h1, h2] at hout
        simp only [Option.bind_eq_bind, Option.some_bind, Option.pure_def,
          Option.some_inj] at hout
        subst hout
        obtain ⟨r, -, hmap⟩ := List.mem_flatMap.mp hmem
        obtain ⟨s, -, rfl⟩ := List.mem_map.mp hmap
        have hvol' : s.settledVolume = 0 := hvol
        show fdiv s.settledCost s.settledVolume = _
        rw [hvol']
        unfold fdiv
        rw [if_pos rfl]
        rfl

def c8Req : List RawReqRow :=
  [{ deliveryDate := "2023-01-01", fromGMTRaw := "17:00", toGMTRaw := "17:30",
     eventType := "LIVE", requiredMw := 0, procuredDayAheadMw := 0 }]

def c8Sum : List SummaryRow :=
  [{ date := "2023-01-01", fromGMT := "17:00", toGMT := "17:30",
     eventType := "LIVE", settledVolume := 0, settledCost := 1,
     d0ProcuredMw := 0 }]

/-- C8 (counterexample): with zero settled volume but nonzero settled cost
the derived settled price is positive infinity, not the NaN sentinel the
claim describes — the function still succeeds and stores the value. -/
theorem c8_zero_settled_volume_price_counterexample :
    (get_event_summary c8Req c8Sum).map (fun l => l.map (·.settledPrice)) =
      some [FVal.posInf] ∧ FVal.posInf ≠ FVal.nan := by
  exact ⟨by decide, by decide⟩

def c8wReq : List RawReqRow :=
  [{ deliveryDate := "2023-01-01", fromGMTRaw := "17:00", toGMTRaw := "17:30",
     eventType := "LIVE", requiredMw := 0, procuredDayAheadMw := 0 }]

def c8wSum : List SummaryRow :=
  [{ date := "2023-01-01", fromGMT := "17:00", toGMT := "17:30",
     eventType := "LIVE", settledVolume := 0, settledCost := 0,
     d0ProcuredMw := 0 }]

def c8wReqN : ReqRow :=
  { date := "2023-01-01", fromGMT := "17:00", toGMT := "17:30",
    eventType := "LIVE", requiredMw := 0, procuredDayAheadMw := 0,
    spStart := some 1211906460, spEnd := some 1211906490 }

def c8wSumN : SummaryRow :=
  { date := "2023-01-01", fromGMT := "17:00", toGMT := "17:30",
    eventType := "LIVE", settledVolume := 0, settledCost := 0,
    d0ProcuredMw := 0, spStart := some 1211906460, spEnd := some 1211906490 }

theorem c8_zero_settled_volume_price_witness :
    (get_event_summary c8wReq c8wSum).isSome = true ∧
    (mkEventSummaryRow c8wReqN c8wSumN).settledPrice = FVal.nan := by
  have h1 : append_settlement_periods_req (c8wReq.map renameRequirements) =
      some [c8wReqN] := by decide
  have h2 : append_settlement_periods_summary c8wSum = some [c8wSumN] := by decide
  have hout := get_event_summary_eq h1 h2
  have hfil : [c8wSumN].filter (fun s => decide (esJoinKeysMatch c8wReqN s)) =
      [c8wSumN] := by decide
  have hmem : mkEventSummaryRow c8wReqN c8wSumN ∈
      ([c8wReqN].flatMap fun r =>
        ([c8wSumN].filter fun s => decide (esJoinKeysMatch r s)).map fun s =>
          mkEventSummaryRow r s) := by
    simp only [List.flatMap_cons, List.flatMap_nil, List.append_nil, hfil,
      List.map_cons, List.map_nil]
    exact List.mem_singleton.mpr rfl
  have hprice := (c8_zero_settled_volume_price c8wReq c8wSum).2 _ hout _ hmem rfl
  refine ⟨(c8_zero_settled_volume_price c8wReq c8wSum).1 [c8wReqN] [c8wSumN] h1 h2,
    ?_⟩
  rw [hprice,
    if_pos (show (mkEventSummaryRow c8wReqN c8wSumN).settledCost = 0 from rfl)]

/-- The set of distinct providers bidding on date `d`
(`set(df["DFS Provider"])` for the date's group). -/
def provSet (bids : List BidRow) (d : String) : Finset String :=
  ((bids.filter fun r => decide (r.date = d)).map (·.provider)).toFinset

/-- The set of distinct providers over all bid rows dated up to and
including `d` (the running union `cumunique` after date `d` is folded in). -/
def cumProvSet (bids : List BidRow) (d : String) : Finset String :=
  ((bids.filter fun r => decide (r.date.toList ≤ d.toList)).map
    (·.provider)).toFinset

/-- Union of the per-date provider sets over the dates of `ds` that are at
or before `d`. -/
def unionUpTo (bids : List BidRow) (ds : List String) (d : String) :
    Finset String :=
  ((ds.filter fun d' => decide (d'.toList ≤ d.toList)).map
    (provSet bids)).foldr (· ∪ ·) ∅

theorem mem_foldr_union {α : Type} [DecidableEq α] (p : α) :
    ∀ (l : List (Finset α)), p ∈ l.foldr (· ∪ ·) ∅ ↔ ∃ s ∈ l, p ∈ s := by
  intro l
  induction l with
  | nil => simp
  | cons s t ih => simp [Finset.mem_union, ih]

theorem unionUpTo_cons_pos (bids : List BidRow) (d y : String)
    (ds : List String) (h : d.toList ≤ y.toList) :
    unionUpTo bids (d :: ds) y = provSet bids d ∪ unionUpTo bids ds y := by
  rw [unionUpTo, List.filter_cons_of_pos (by simpa using h), List.map_cons,
    List.foldr_cons]
  rfl

theorem unionUpTo_cons_head (bids : List BidRow) (d : String)
    (ds : List String) (h : ∀ d' ∈ ds, ¬ d'.toList ≤ d.toList) :
    unionUpTo bids (d :: ds) d = provSet bids d := by
  rw [unionUpTo, List.filter_cons_of_pos (by simp),
    List.filter_eq_nil_iff.mpr (fun d' hd' => by simpa using h d' hd'),
    List.map_cons, List.map_nil, List.foldr_cons, List.foldr_nil,
    Finset.union_empty]

theorem provider_metrics_go_spec (bids : List BidRow) :
    ∀ (ds : List String) (acc : Finset String),
      List.Pairwise (fun a b : String => a.toList < b.toList) ds →
      ∀ x ∈ provider_metrics_go bids ds acc,
        x.1 ∈ ds ∧ x.2.1 = (provSet bids x.1).card ∧
        x.2.2 = (acc ∪ unionUpTo bids ds x.1).card := by
  intro ds
  induction ds with
  | nil => intro acc _ x hx; cases hx
  | cons d ds ih =>
    intro acc hp x hx
    rw [provider_metrics_go] at hx
    cases hp with
    | cons hd hp' =>
      rcases List.mem_cons.mp hx with rfl | hx'
      · refine ⟨List.mem_cons_self _ _, rfl, ?_⟩
        show (acc ∪ provSet bids d).card = _
        rw [unionUpTo_cons_head bids d ds
          (fun d' hd' => not_le_of_lt (hd d' hd'))]
      · obtain ⟨hxin, h1, h2⟩ := ih (acc ∪ provSet bids d) hp' x hx'
        refine ⟨List.mem_cons_of_mem _ hxin, h1, ?_⟩
        rw [h2, unionUpTo_cons_pos bids d x.1 ds (le_of_lt (hd x.1 hxin)),
          Finset.union_assoc]

theorem provider_metrics_go_map_fst (bids : List BidRow) :
    ∀ (ds : List String) (acc : Finset String),
      (provider_metrics_go bids ds acc).map (·.1) = ds := by
  intro ds
  induction ds with
  | nil => intro acc; rfl
  | cons d ds ih =>
    intro acc
    rw [provider_metrics_go, List.map_cons, ih]

theorem unionUpTo_dates_eq_cumProvSet (bids : List BidRow) (d : String) :
    unionUpTo bids (sortedUniqueKeys String.toList (bids.map (·.date))) d =
      cumProvSet bids d := by
  ext p
  rw [unionUpTo, cumProvSet, mem_foldr_union]
  constructor
  · rintro ⟨s, hs, hps⟩
    obtain ⟨d', hd', rfl⟩ := List.mem_map.mp hs
    obtain ⟨hd'mem, hd'le⟩ := List.mem_filter.mp hd'
    obtain ⟨r, hr, hrp⟩ := List.mem_map.mp (List.mem_toFinset.mp hps)
    obtain ⟨hrb, hrd⟩ := List.mem_filter.mp hr
    rw [List.mem_toFinset]
    refine List.mem_map.mpr ⟨r, List.mem_filter.mpr ⟨hrb, ?_⟩, hrp⟩
    simp only [decide_eq_true_eq] at hrd hd'le ⊢
    rw [hrd]
    exact hd'le
  · intro hp
    obtain ⟨r, hr, hrp⟩ := List.mem_map.mp (List.mem_toFinset.mp hp)
    obtain ⟨hrb, hrle⟩ := List.mem_filter.mp hr
    refine ⟨provSet bids r.date, List.mem_map.mpr ⟨r.date,
      List.mem_filter.mpr ⟨(mem_sortedUniqueKeys _ _ _).mpr
        (List.mem_map.mpr ⟨r, hrb, rfl⟩), hrle⟩, rfl⟩, ?_⟩
    rw [provSet, List.mem_toFinset]
    exact List.mem_map.mpr ⟨r, List.mem_filter.mpr ⟨hrb, by simp⟩, hrp⟩

/-- Every entry of `dfs_provider_metrics`: the date is one of the distinct
bid dates, `num_dfs_providers` is the number of distinct providers that
date, and `num_dfs_providers_cumulative` is the size of the union of
provider sets over all dates up to and including it. -/
theorem dfs_provider_metrics_spec (bids : List BidRow) :
    ∀ x ∈ dfs_provider_metrics bids,
      x.1 ∈ sortedUniqueKeys String.toList (bids.map (·.date)) ∧
      x.2.1 = (provSet bids x.1).card ∧
      x.2.2 = (cumProvSet bids x.1).card := by
  intro x hx
  obtain ⟨hin, h1, h2⟩ := provider_metrics_go_spec bids _ ∅
    (pairwise_lt_sortedUniqueKeys string_toList_injective _) x hx
  refine ⟨hin, h1, ?_⟩
  rw [h2, Finset.empty_union, unionUpTo_dates_eq_cumProvSet]

def c5Bids : List BidRow :=
  [{ date := "2023-01-01", provider := "A", fromGMT := "17:00",
     toGMT := "17:30", eventType := "LIVE", vals := fun _ => 0 },
   { date := "2023-01-01", provider := "B", fromGMT := "17:00",
     toGMT := "17:30", eventType := "LIVE", vals := fun _ => 0 },
   { date := "2023-01-04", provider := "B", fromGMT := "17:00",
     toGMT := "17:30", eventType := "LIVE", vals := fun _ => 0 },
   { date := "2023-01-04", provider := "C", fromGMT := "17:00",
     toGMT := "17:30", eventType := "LIVE", vals := fun _ => 0 },
   { date := "2023-01-22", provider := "A", fromGMT := "17:00",
     toGMT := "17:30", eventType := "LIVE", vals := fun _ => 0 }]

/-- C5: the provider-count loop of `get_metrics_by_dfs_event` walks the
distinct event dates in ascending order and emits, per date, the number of
distinct providers bidding that date and the size of the running union of
providers over all dates up to and including it; on the three-date example
of the spec the per-day counts are 2, 2, 1 and the cumulative counts are
2, 3, 3. -/
theorem c5_provider_count_series :
    (∀ bids : List BidRow,
      (dfs_provider_metrics bids).map (·.1) =
        sortedUniqueKeys String.toList (bids.map (·.date)) ∧
      List.Pairwise (fun x y : String × Nat × Nat =>
        x.1.toList < y.1.toList) (dfs_provider_metrics bids) ∧
      ∀ x ∈ dfs_provider_metrics bids,
        x.2.1 = (provSet bids x.1).card ∧
        x.2.2 = (cumProvSet bids x.1).card) ∧
    dfs_provider_metrics c5Bids =
      [("2023-01-01", 2, 2), ("2023-01-04", 2, 3), ("2023-01-22", 1, 3)] := by
  constructor
  · intro bids
    refine ⟨provider_metrics_go_map_fst bids _ ∅, ?_, ?_⟩
    · have hpair := pairwise_lt_sortedUniqueKeys string_toList_injective
        (bids.map (·.date))
      rw [← provider_metrics_go_map_fst bids
        (sortedUniqueKeys String.toList (bids.map (·.date))) ∅] at hpair
      exact (@List.pairwise_map _ _ (fun y : String × Nat × Nat => y.1)
        (fun a b : String => a.toList < b.toList) _).mp hpair
    · intro x hx
      exact ⟨(dfs_provider_metrics_spec bids x hx).2.1,
        (dfs_provider_metrics_spec bids x hx).2.2⟩
  · decide

theorem c5_provider_count_series_witness :
    (("2023-01-04", 2, 3) : String × Nat × Nat) ∈ dfs_provider_metrics c5Bids ∧
    2 = (provSet c5Bids "2023-01-04").card ∧
    3 = (cumProvSet c5Bids "2023-01-04").card := by
  have hmem : (("2023-01-04", 2, 3) : String × Nat × Nat) ∈
      dfs_provider_metrics c5Bids := by decide
  have h := (c5_provider_count_series.1 c5Bids).2.2 _ hmem
  exact ⟨hmem, h.1, h.2⟩

/-- Running sum of `g` over the dates of `ds` at or before `d`. -/
def sumUpTo (ds : List String) (g : String → ℚ) (d : String) : ℚ :=
  ((ds.filter fun d' => decide (d'.toList ≤ d.toList)).map g).sum

theorem sumUpTo_cons_pos (d y : String) (ds : List String) (g : String → ℚ)
    (h : d.toList ≤ y.toList) :
    sumUpTo (d :: ds) g y = g d + sumUpTo ds g y := by
  rw [sumUpTo, List.filter_cons_of_pos (by simpa using h), List.map_cons,
    List.sum_cons]
  rfl

theorem sumUpTo_cons_head (d : String) (ds : List String) (g : String → ℚ)
    (h : ∀ d' ∈ ds, ¬ d'.toList ≤ d.toList) :
    sumUpTo (d :: ds) g d = g d := by
  rw [sumUpTo, List.filter_cons_of_pos (by simp),
    List.filter_eq_nil_iff.mpr (fun d' hd' => by simpa using h d' hd'),
    List.map_cons, List.map_nil, List.sum_cons, List.sum_nil, add_zero]

theorem event_metrics_go_spec (es : List EventSummaryRow) :
    ∀ (ds : List String) (cd cs cp : ℚ),
      List.Pairwise (fun a b : String => a.toList < b.toList) ds →
      ∀ x ∈ event_metrics_go es ds cd cs cp,
        x.1 ∈ ds ∧
        x.2 = event_agg_row es x.1
          (cd + sumUpTo ds (perDuration es) x.1)
          (cs + sumUpTo ds (perSettled es) x.1)
          (cp + sumUpTo ds (perProcured es) x.1) := by
  intro ds
  induction ds with
  | nil => intro cd cs cp _ x hx; cases hx
  | cons d ds ih =>
    intro cd cs cp hp x hx
    rw [event_metrics_go] at hx
    cases hp with
    | cons hd hp' =>
      rcases List.mem_cons.mp hx with rfl | hx'
      · refine ⟨List.mem_cons_self _ _, ?_⟩
        rw [sumUpTo_cons_head d ds _ (fun d' hd' => not_le_of_lt (hd d' hd')),
          sumUpTo_cons_head d ds _ (fun d' hd' => not_le_of_lt (hd d' hd')),
          sumUpTo_cons_head d ds _ (fun d' hd' => not_le_of_lt (hd d' hd'))]
      · obtain ⟨hxin, h2⟩ := ih _ _ _ hp' x hx'
        refine ⟨List.mem_cons_of_mem _ hxin, ?_⟩
        rw [h2,
          sumUpTo_cons_pos d x.1 ds _ (le_of_lt (hd x.1 hxin)),
          sumUpTo_cons_pos d x.1 ds _ (le_of_lt (hd x.1 hxin)),
          sumUpTo_cons_pos d x.1 ds _ (le_of_lt (hd x.1 hxin)),
          ← add_assoc, ← add_assoc, ← add_assoc]

theorem event_metrics_go_map_fst (es : List EventSummaryRow) :
    ∀ (ds : List String) (cd cs cp : ℚ),
      (event_metrics_go es ds cd cs cp).map (·.1) = ds := by
  intro ds
  induction ds with
  | nil => intro cd cs cp; rfl
  | cons d ds ih =>
    intro cd cs cp
    rw [event_metrics_go, List.map_cons, ih]

/-- Every entry of `event_metrics es` is the aggregation row of its date,
with cumulative fields equal to the running sums of the per-event series
over all distinct event dates up to and including that date. -/
theorem event_metrics_spec (es : List EventSummaryRow) :
    ∀ x ∈ event_metrics es,
      x.1 ∈ sortedUniqueKeys String.toList (es.map (·.date)) ∧
      x.2 = event_agg_row es x.1
        (sumUpTo (sortedUniqueKeys String.toList (es.map (·.date)))
          (perDuration es) x.1)
        (sumUpTo (sortedUniqueKeys String.toList (es.map (·.date)))
          (perSettled es) x.1)
        (sumUpTo (sortedUniqueKeys String.toList (es.map (·.date)))
          (perProcured es) x.1) := by
  intro x hx
  obtain ⟨h1, h2⟩ := event_metrics_go_spec es _ 0 0 0
    (pairwise_lt_sortedUniqueKeys string_toList_injective _) x hx
  rw [zero_add, zero_add, zero_add] at h2
  exact ⟨h1, h2⟩

theorem event_metrics_go_filter_proj (es : List EventSummaryRow) (d : String)
    (F : EventMetricsRow → ℚ) (G : String → ℚ)
    (hFG : ∀ dd cd cs cp, F (event_agg_row es dd cd cs cp) = G dd) :
    ∀ (ds : List String) (cd cs cp : ℚ),
      ((event_metrics_go es ds cd cs cp).filter fun p =>
        decide (p.1.toList ≤ d.toList)).map (fun p => F p.2) =
      (ds.filter fun d' => decide (d'.toList ≤ d.toList)).map G := by
  intro ds
  induction ds with
  | nil => intro cd cs cp; rfl
  | cons dd ds ih =>
    intro cd cs cp
    rw [event_metrics_go]
    by_cases hc : dd.toList ≤ d.toList
    · rw [List.filter_cons_of_pos (by simpa using hc),
        List.filter_cons_of_pos (by simpa using hc),
        List.map_cons, List.map_cons, ih, hFG]
    · rw [List.filter_cons_of_neg (by simpa using hc),
        List.filter_cons_of_neg (by simpa using hc), ih]

theorem lookup_mem {β : Type} :
    ∀ {l : List (String × β)} {k : String} {b : β},
      l.lookup k = some b → (k, b) ∈ l := by
  intro l
  induction l with
  | nil => intro k b h; cases h
  | cons p t ih =>
    intro k b h
    obtain ⟨k', b'⟩ := p
    rw [List.lookup] at h
    cases hk : k == k' with
    | true =>
      rw [hk] at h
      injection h with h
      subst h
      rw [eq_of_beq hk]
      exact List.mem_cons_self _ _
    | false =>
      rw [hk] at h
      exact List.mem_cons_of_mem _ (ih h)

theorem mem_get_metrics_by_dfs_event {bids : List BidRow}
    {es : List EventSummaryRow} {d : String} {m : MetricsRow}
    (h : (d, m) ∈ get_metrics_by_dfs_event bids es) :
    m.providerPart = (dfs_provider_metrics bids).lookup d ∧
    m.eventPart = (event_metrics es).lookup d := by
  unfold get_metrics_by_dfs_event at h
  obtain ⟨d', -, heq⟩ := List.mem_map.mp h
  have hd' : d' = d := congrArg Prod.fst heq
  subst hd'
  have hm' := congrArg Prod.snd heq
  simp only at hm'
  rw [← hm']
  exact ⟨rfl, rfl⟩

/-- C2 (amended): in the Event Metrics table, the
`num_dfs_providers_cumulative` and `duration_hours_cumulative` columns are
monotonically non-decreasing along the date-sorted table and every
cumulative energy/duration value at a date equals the running sum of the
corresponding per-event series over all event dates up to and including it
— both unconditionally, for every input; and provided every event-summary
row carries nonnegative settled/procured energy, the two energy columns
`flex_settled_mwh_cumulative` and `flex_procured_mwh_cumulative` are
monotonically non-decreasing as well. -/
theorem c2_cumulative_fields_monotone_and_running_sum (bids : List BidRow)
    (es : List EventSummaryRow) :
    List.Pairwise (fun a b : Nat => a ≤ b)
      ((get_metrics_by_dfs_event bids es).filterMap
        (fun p => p.2.providerPart.map (·.2))) ∧
    List.Pairwise (fun a b : ℚ => a ≤ b)
      ((get_metrics_by_dfs_event bids es).filterMap
        (fun p => p.2.eventPart.map (·.durationHoursCum))) ∧
    (∀ (d : String) (m : MetricsRow) (em : EventMetricsRow),
      (d, m) ∈ get_metrics_by_dfs_event bids es → m.eventPart = some em →
      em.durationHoursCum = (((event_metrics es).filter fun p =>
        decide (p.1.toList ≤ d.toList)).map fun p => p.2.durationHours).sum ∧
      em.flexSettledCum = (((event_metrics es).filter fun p =>
        decide (p.1.toList ≤ d.toList)).map fun p => p.2.flexSettledMwh).sum ∧
      em.flexProcuredCum = (((event_metrics es).filter fun p =>
        decide (p.1.toList ≤ d.toList)).map fun p => p.2.flexProcuredMwh).sum) ∧
    ((∀ r ∈ es, 0 ≤ r.flexSettledMwh ∧ 0 ≤ r.flexProcuredMwh) →
      List.Pairwise (fun a b : ℚ => a ≤ b)
        ((get_metrics_by_dfs_event bids es).filterMap
          (fun p => p.2.eventPart.map (·.flexSettledCum))) ∧
      List.Pairwise (fun a b : ℚ => a ≤ b)
        ((get_metrics_by_dfs_event bids es).filterMap
          (fun p => p.2.eventPart.map (·.flexProcuredCum)))) := by
  have hpairt : List.Pairwise (fun p q : String × MetricsRow =>
      p.1.toList < q.1.toList) (get_metrics_by_dfs_event bids es) := by
    unfold get_metrics_by_dfs_event
    exact List.Pairwise.map _ (fun a b h => h)
      (pairwise_lt_sortedUniqueKeys string_toList_injective _)
  have hpairmem : List.Pairwise (fun p q : String × MetricsRow =>
      p ∈ get_metrics_by_dfs_event bids es ∧
      q ∈ get_metrics_by_dfs_event bids es ∧ p.1.toList < q.1.toList)
      (get_metrics_by_dfs_event bids es) := List.Pairwise.and_mem.mp hpairt
  have hprov : ∀ (d : String) (m : MetricsRow) (pr : Nat × Nat),
      (d, m) ∈ get_metrics_by_dfs_event bids es → m.providerPart = some pr →
      pr.2 = (cumProvSet bids d).card := by
    intro d m pr hmem hsome
    have h1 := (mem_get_metrics_by_dfs_event hmem).1
    rw [h1] at hsome
    exact (dfs_provider_metrics_spec bids _ (lookup_mem hsome)).2.2
  have hev : ∀ (d : String) (m : MetricsRow) (em : EventMetricsRow),
      (d, m) ∈ get_metrics_by_dfs_event bids es → m.eventPart = some em →
      em = event_agg_row es d
        (sumUpTo (sortedUniqueKeys String.toList (es.map (·.date)))
          (perDuration es) d)
        (sumUpTo (sortedUniqueKeys String.toList (es.map (·.date)))
          (perSettled es) d)
        (sumUpTo (sortedUniqueKeys String.toList (es.map (·.date)))
          (perProcured es) d) := by
    intro d m em hmem hsome
    have h1 := (mem_get_metrics_by_dfs_event hmem).2
    rw [h1] at hsome
    exact (event_metrics_spec es _ (lookup_mem hsome)).2
  have hsub : ∀ (d d' : String), d.toList ≤ d'.toList →
      ((sortedUniqueKeys String.toList (es.map (·.date))).filter fun a =>
        decide (a.toList ≤ d.toList)).Sublist
      ((sortedUniqueKeys String.toList (es.map (·.date))).filter fun a =>
        decide (a.toList ≤ d'.toList)) :=
    fun d d' hle => List.monotone_filter_right _ (fun a ha => by
      simp only [decide_eq_true_eq] at ha ⊢
      exact le_trans ha hle)
  have hmonoQ : ∀ (g : String → ℚ), (∀ d', 0 ≤ g d') →
      ∀ (d d' : String), d.toList ≤ d'.toList →
      sumUpTo (sortedUniqueKeys String.toList (es.map (·.date))) g d ≤
      sumUpTo (sortedUniqueKeys String.toList (es.map (·.date))) g d' := by
    intro g hg d d' hle
    refine List.Sublist.sum_le_sum (List.Sublist.map g (hsub d d' hle)) ?_
    intro a ha
    obtain ⟨d'', -, rfl⟩ := List.mem_map.mp ha
    exact hg d''
  have hgdur : ∀ d', 0 ≤ perDuration es d' := by
    intro d'
    exact div_nonneg (Nat.cast_nonneg _) (by norm_num)
  have hcumsub : ∀ (d d' : String), d.toList ≤ d'.toList →
      (cumProvSet bids d).card ≤ (cumProvSet bids d').card := by
    intro d d' hle
    refine Finset.card_le_card (fun p hp => ?_)
    rw [cumProvSet, List.mem_toFinset] at hp ⊢
    obtain ⟨r, hr, rfl⟩ := List.mem_map.mp hp
    obtain ⟨hrb, hrd⟩ := List.mem_filter.mp hr
    refine List.mem_map.mpr ⟨r, List.mem_filter.mpr ⟨hrb, ?_⟩, rfl⟩
    simp only [decide_eq_true_eq] at hrd ⊢
    exact le_trans hrd hle
  refine ⟨?_, ?_, ?_, fun hnn => ⟨?_, ?_⟩⟩
  · rw [List.pairwise_filterMap]
    refine hpairmem.imp ?_
    rintro ⟨d, m⟩ ⟨d', m'⟩ ⟨hm, hm', hlt⟩ x hx y hy
    rw [Option.mem_def, Option.map_eq_some'] at hx hy
    obtain ⟨pr, hpr, rfl⟩ := hx
    obtain ⟨pr', hpr', rfl⟩ := hy
    rw [hprov d m pr hm hpr, hprov d' m' pr' hm' hpr']
    exact hcumsub d d' (le_of_lt hlt)
  · rw [List.pairwise_filterMap]
    refine hpairmem.imp ?_
    rintro ⟨d, m⟩ ⟨d', m'⟩ ⟨hm, hm', hlt⟩ x hx y hy
    rw [Option.mem_def, Option.map_eq_some'] at hx hy
    obtain ⟨em, hem, rfl⟩ := hx
    obtain ⟨em', hem', rfl⟩ := hy
    rw [hev d m em hm hem, hev d' m' em' hm' hem']
    exact hmonoQ _ hgdur d d' (le_of_lt hlt)
  · intro d m em hmem hsome
    rw [hev d m em hmem hsome]
    refine ⟨?_, ?_, ?_⟩
    · show sumUpTo _ (perDuration es) d = _
      rw [event_metrics, event_metrics_go_filter_proj es d
        (·.durationHours) (perDuration es) (fun dd cd cs cp => rfl)]
      rfl
    · show sumUpTo _ (perSettled es) d = _
      rw [event_metrics, event_metrics_go_filter_proj es d
        (·.flexSettledMwh) (perSettled es) (fun dd cd cs cp => rfl)]
      rfl
    · show sumUpTo _ (perProcured es) d = _
      rw [event_metrics, event_metrics_go_filter_proj es d
        (·.flexProcuredMwh) (perProcured es) (fun dd cd cs cp => rfl)]
      rfl
  · have hgset : ∀ d', 0 ≤ perSettled es d' := by
      intro d'
      refine List.sum_nonneg (fun a ha => ?_)
      obtain ⟨r, hr, rfl⟩ := List.mem_map.mp ha
      exact (hnn r (List.mem_filter.mp hr).1).1
    rw [List.pairwise_filterMap]
    refine hpairmem.imp ?_
    rintro ⟨d, m⟩ ⟨d', m'⟩ ⟨hm, hm', hlt⟩ x hx y hy
    rw [Option.mem_def, Option.map_eq_some'] at hx hy
    obtain ⟨em, hem, rfl⟩ := hx
    obtain ⟨em', hem', rfl⟩ := hy
    rw [hev d m em hm hem, hev d' m' em' hm' hem']
    exact hmonoQ _ hgset d d' (le_of_lt hlt)
  · have hgproc : ∀ d', 0 ≤ perProcured es d' := by
      intro d'
      refine List.sum_nonneg (fun a ha => ?_)
      obtain ⟨r, hr, rfl⟩ := List.mem_map.mp ha
      exact (hnn r (List.mem_filter.mp hr).1).2
    rw [List.pairwise_filterMap]
    refine hpairmem.imp ?_
    rintro ⟨d, m⟩ ⟨d', m'⟩ ⟨hm, hm', hlt⟩ x hx y hy
    rw [Option.mem_def, Option.map_eq_some'] at hx hy
    obtain ⟨em, hem, rfl⟩ := hx
    obtain ⟨em', hem', rfl⟩ := hy
    rw [hev d m em hm hem, hev d' m' em' hm' hem']
    exact hmonoQ _ hgproc d d' (le_of_lt hlt)

def c2Bids : List BidRow :=
  [{ date := "2023-01-01", provider := "A", fromGMT := "17:00",
     toGMT := "17:30", eventType := "LIVE", vals := fun _ => 0 }]

def c2Es : List EventSummaryRow :=
  [{ date := "2023-01-01", fromGMT := "17:00", toGMT := "17:30",
     spStart := some 1211906460, spEnd := some 1211906490,
     eventType := "LIVE", requiredMw := 0, procuredDayAheadMw := 0,
     settledVolume := 2, settledCost := 0, d0ProcuredMw := 0,
     settledPrice := FVal.num 0, flexSettledMwh := 1, flexProcuredMwh := 0 },
   { date := "2023-01-02", fromGMT := "17:00", toGMT := "17:30",
     spStart := some 1211907900, spEnd := some 1211907930,
     eventType := "LIVE", requiredMw := 0, procuredDayAheadMw := 0,
     settledVolume := -2, settledCost := 0, d0ProcuredMw := 0,
     settledPrice := FVal.num 0, flexSettledMwh := -1, flexProcuredMwh := 0 }]

/-- C2 (counterexample): with a negative settled volume on the later event
date (nothing in the code forbids one), `flex_settled_mwh_cumulative`
decreases from the first to the second date, refuting unconditional
monotonicity of the cumulative fields. -/
theorem c2_cumulative_fields_counterexample :
    ¬ List.Pairwise (fun a b : ℚ => a ≤ b)
      ((get_metrics_by_dfs_event c2Bids c2Es).filterMap
        (fun p => p.2.eventPart.map (·.flexSettledCum))) := by
  have hlist : (get_metrics_by_dfs_event c2Bids c2Es).filterMap
      (fun p => p.2.eventPart.map (·.flexSettledCum)) =
      [0 + perSettled c2Es "2023-01-01",
       0 + perSettled c2Es "2023-01-01" + perSettled c2Es "2023-01-02"] := rfl
  have h1 : perSettled c2Es "2023-01-01" = 1 := by
    show ([(1 : ℚ)]).sum = 1
    simp
  have h2 : perSettled c2Es "2023-01-02" = -1 := by
    show ([(-1 : ℚ)]).sum = -1
    simp
  rw [hlist, h1, h2]
  intro hp
  have := (List.pairwise_cons.mp hp).1 (0 + 1 + -1) (List.mem_singleton.mpr rfl)
  norm_num at this

def c2wEs : List EventSummaryRow :=
  [{ date := "2023-01-01", fromGMT := "17:00", toGMT := "17:30",
     spStart := some 1211906460, spEnd := some 1211906490,
     eventType := "LIVE", requiredMw := 0, procuredDayAheadMw := 0,
     settledVolume := 2, settledCost := 0, d0ProcuredMw := 0,
     settledPrice := FVal.num 0, flexSettledMwh := 1, flexProcuredMwh := 0 },
   { date := "2023-01-02", fromGMT := "17:00", toGMT := "17:30",
     spStart := some 1211907900, spEnd := some 1211907930,
     eventType := "LIVE", requiredMw := 0, procuredDayAheadMw := 0,
     settledVolume := 2, settledCost := 0, d0ProcuredMw := 0,
     settledPrice := FVal.num 0, flexSettledMwh := 1, flexProcuredMwh := 0 }]

theorem c2_cumulative_fields_monotone_and_running_sum_witness :
    List.Pairwise (fun a b : Nat => a ≤ b)
      ((get_metrics_by_dfs_event c2Bids c2wEs).filterMap
        (fun p => p.2.providerPart.map (·.2))) ∧
    List.Pairwise (fun a b : ℚ => a ≤ b)
      ((get_metrics_by_dfs_event c2Bids c2wEs).filterMap
        (fun p => p.2.eventPart.map (·.flexSettledCum))) :=
  ⟨(c2_cumulative_fields_monotone_and_running_sum c2Bids c2wEs).1,
   ((c2_cumulative_fields_monotone_and_running_sum c2Bids c2wEs).2.2.2
     (by decide)).1⟩

/-- A bid row carrying half of every numeric quantity (each of the summed
`BID_AGGREGATIONS` columns halved), with the identifying columns
unchanged. -/
def halfRow (r : BidRow) : BidRow :=
  { r with vals := fun c => r.vals c / 2 }

theorem bidKey_halfRow (r : BidRow) : bidKey (halfRow r) = bidKey r := rfl

theorem bid_norm_row_halfRow (r : BidRow) :
    bid_norm_row (halfRow r) = (bid_norm_row r).map halfRow := by
  show (do
      let s ← toDatetimeLocalized r.date r.fromGMT
      let e ← toDatetimeLocalized r.date r.toGMT
      pure { halfRow r with spStart := some s, spEnd := some e } :
      Option BidRow) = _
  cases hs : toDatetimeLocalized r.date r.fromGMT with
  | none =>
    rw [bid_norm_row, hs]
    rfl
  | some s =>
    cases he : toDatetimeLocalized r.date r.toGMT with
    | none =>
      rw [bid_norm_row, hs, he]
      rfl
    | some e =>
      rw [bid_norm_row, hs, he]
      rfl

theorem bids_by_provider_stage1_halving (nb₁ nb₂ : List BidRow) (r : BidRow) :
    bids_by_provider_stage1 (nb₁ ++ r :: nb₂) =
      bids_by_provider_stage1 (nb₁ ++ halfRow r :: halfRow r :: nb₂) := by
  have hks : sortedUniqueKeys bidKeyEmbed ((nb₁ ++ r :: nb₂).map bidKey) =
      sortedUniqueKeys bidKeyEmbed
        ((nb₁ ++ halfRow r :: halfRow r :: nb₂).map bidKey) := by
    apply sortedUniqueKeys_congr bidKeyEmbed_injective
    intro k
    simp only [List.map_append, List.map_cons, List.mem_append, List.mem_cons,
      bidKey_halfRow]
    tauto
  have hsum : ∀ k c,
      (((nb₁ ++ r :: nb₂).filter fun x => decide (bidKey x = k)).map
        fun x => x.vals c).sum =
      (((nb₁ ++ halfRow r :: halfRow r :: nb₂).filter fun x =>
        decide (bidKey x = k)).map fun x => x.vals c).sum := by
    intro k c
    rw [List.filter_append, List.filter_append, List.map_append,
      List.map_append, List.sum_append, List.sum_append]
    congr 1
    by_cases hk : bidKey r = k
    · rw [List.filter_cons_of_pos (by simpa using hk),
        List.filter_cons_of_pos (by simpa [bidKey_halfRow] using hk),
        List.filter_cons_of_pos (by simpa [bidKey_halfRow] using hk),
        List.map_cons, List.map_cons, List.map_cons, List.sum_cons,
        List.sum_cons, List.sum_cons, ← add_assoc]
      have : (halfRow r).vals c = r.vals c / 2 := rfl
      rw [this, add_halves]
    · rw [List.filter_cons_of_neg (by simpa using hk),
        List.filter_cons_of_neg (by simpa [bidKey_halfRow] using hk),
        List.filter_cons_of_neg (by simpa [bidKey_halfRow] using hk)]
  unfold bids_by_provider_stage1
  rw [← hks]
  refine List.map_congr_left (fun k hk => ?_)
  have hv : (fun c =>
      (((nb₁ ++ r :: nb₂).filter fun x => decide (bidKey x = k)).map
        fun x => x.vals c).sum) =
      (fun c =>
      (((nb₁ ++ halfRow r :: halfRow r :: nb₂).filter fun x =>
        decide (bidKey x = k)).map fun x => x.vals c).sum) :=
    funext fun c => hsum k c
  rw [hv]

theorem bids_by_provider_stages_halving (nb₁ nb₂ : List BidRow) (r : BidRow) :
    bids_by_provider_stages (nb₁ ++ r :: nb₂) =
      bids_by_provider_stages (nb₁ ++ halfRow r :: halfRow r :: nb₂) := by
  unfold bids_by_provider_stages
  rw [bids_by_provider_stage1_halving nb₁ nb₂ r]

/-- C6: splitting one bid row into two rows that each carry half of every
summed quantity (same date, provider and settlement window) leaves the
entire per-(date, provider) output of `get_bids_by_provider_event`
unchanged — duplicate submissions for a settlement period are summed, not
deduplicated. -/
theorem c6_provider_aggregation_halving (l₁ l₂ : List BidRow) (r : BidRow) :
    get_bids_by_provider_event (l₁ ++ r :: l₂) =
      get_bids_by_provider_event (l₁ ++ halfRow r :: halfRow r :: l₂) := by
  unfold get_bids_by_provider_event append_settlement_periods_bids
  rw [List.mapM_append, List.mapM_append, List.mapM_cons, List.mapM_cons,
    List.mapM_cons, bid_norm_row_halfRow]
  cases h₁ : l₁.mapM bid_norm_row with
  | none => rfl
  | some n₁ =>
    cases hr : bid_norm_row r with
    | none => rfl
    | some rr =>
      cases h₂ : l₂.mapM bid_norm_row with
      | none => rfl
      | some n₂ =>
        show Option.map bids_by_provider_stages (some (n₁ ++ rr :: n₂)) =
          Option.map bids_by_provider_stages
            (some (n₁ ++ halfRow rr :: halfRow rr :: n₂))
        rw [Option.map_some', Option.map_some',
          bids_by_provider_stages_halving n₁ n₂ rr]

/-- The type of the six-column join key of `get_event_summary`. -/
abbrev Key6 : Type := String × String × String × Option Int × Option Int × String

set_option synthInstance.maxSize 512 in
instance : DecidableEq Key6 := inferInstance

/-- The six-column join key of a (renamed, normalised) requirement row. -/
def reqKey6 (r : ReqRow) : Key6 :=
  (r.date, r.fromGMT, r.toGMT, r.spStart, r.spEnd, r.eventType)

/-- The six-column join key of a normalised summary row. -/
def sumKey6 (s : SummaryRow) : Key6 :=
  (s.date, s.fromGMT, s.toGMT, s.spStart, s.spEnd, s.eventType)

theorem esJoinKeysMatch_iff (r : ReqRow) (s : SummaryRow) :
    esJoinKeysMatch r s ↔ sumKey6 s = reqKey6 r := by
  rw [esJoinKeysMatch, reqKey6, sumKey6, Prod.mk.injEq, Prod.mk.injEq,
    Prod.mk.injEq, Prod.mk.injEq, Prod.mk.injEq]

theorem length_filter_eq_key_le_one {α K : Type} [DecidableEq K] (f : α → K) :
    ∀ {l : List α}, (l.map f).Nodup → ∀ κ,
      (l.filter fun x => decide (f x = κ)).length ≤ 1 := by
  intro l
  induction l with
  | nil => intro _ κ; simp
  | cons a t ih =>
    intro hn κ
    rw [List.map_cons, List.nodup_cons] at hn
    by_cases hk : f a = κ
    · rw [List.filter_cons_of_pos (by simpa using hk),
        List.filter_eq_nil_iff.mpr (fun x hx => by
          simp only [decide_eq_true_eq]
          intro hfx
          exact hn.1 (List.mem_map.mpr ⟨x, hx, by rw [hfx, hk]⟩))]
      simp
    · rw [List.filter_cons_of_neg (by simpa using hk)]
      exact ih hn.2 κ

theorem sum_filter_lengths_le {α β K : Type} [DecidableEq K]
    (fa : α → K) (fb : β → K) :
    ∀ (l : List α) (m : List β), (l.map fa).Nodup →
      (l.map fun r => (m.filter fun s => decide (fb s = fa r)).length).sum ≤
        m.length := by
  intro l
  induction l with
  | nil => intro m _; simp
  | cons r t ih =>
    intro m hn
    rw [List.map_cons, List.nodup_cons] at hn
    rw [List.map_cons, List.sum_cons]
    have hshift : (t.map fun r' =>
        (m.filter fun s => decide (fb s = fa r')).length) =
        (t.map fun r' =>
        ((m.filter fun s => !decide (fb s = fa r)).filter fun s =>
          decide (fb s = fa r')).length) := by
      refine List.map_congr_left (fun r' hr' => ?_)
      have hne : fa r' ≠ fa r := fun he =>
        hn.1 (List.mem_map.mpr ⟨r', hr', he⟩)
      congr 1
      rw [List.filter_filter]
      refine List.filter_congr (fun s _ => ?_)
      by_cases h : fb s = fa r'
      · simp [h, hne]
      · simp [h]
    rw [hshift]
    have hIH := ih (m.filter fun s => !decide (fb s = fa r)) hn.2
    have hsplit : (m.filter fun s => decide (fb s = fa r)).length +
        (m.filter fun s => !decide (fb s = fa r)).length = m.length :=
      (List.length_eq_length_filter_add _).symm
    omega

/-- C1 (amended): the Event Summary is exactly the inner join on the six
keys — a row is in the output iff it is the merged row of a
requirement/summary pair agreeing on all six join keys, so rows without a
match on either side are excluded — and, provided the six join keys are
unique within each (normalised) input table (the data-model invariant),
the output has at most `min` of the input row counts. -/
theorem c1_event_summary_six_key_join (requirements : List RawReqRow)
    (summary : List SummaryRow) (reqN : List ReqRow) (sumN : List SummaryRow)
    (out : List EventSummaryRow)
    (h1 : append_settlement_periods_req (requirements.map renameRequirements) =
      some reqN)
    (h2 : append_settlement_periods_summary summary = some sumN)
    (hout : get_event_summary requirements summary = some out) :
    (∀ esr, esr ∈ out ↔ ∃ r ∈ reqN, ∃ s ∈ sumN,
      esJoinKeysMatch r s ∧ esr = mkEventSummaryRow r s) ∧
    ((reqN.map reqKey6).Nodup → (sumN.map sumKey6).Nodup →
      out.length ≤ min requirements.length summary.length) := by
  have hexp : out = reqN.flatMap fun r =>
      (sumN.filter fun s => decide (esJoinKeysMatch r s)).map
        (fun s => mkEventSummaryRow r s) := by
    rw [get_event_summary_eq h1 h2] at hout
    exact (Option.some.inj hout).symm
  subst hexp
  constructor
  · intro esr
    simp only [List.mem_flatMap, List.mem_map, List.mem_filter,
      decide_eq_true_eq]
    constructor
    · rintro ⟨r, hr, s, ⟨hs, hm⟩, rfl⟩
      exact ⟨r, hr, s, hs, hm, rfl⟩
    · rintro ⟨r, hr, s, hs, hm, rfl⟩
      exact ⟨r, hr, s, ⟨hs, hm⟩, rfl⟩
  · intro hnr hns
    have hreqlen : reqN.length = requirements.length := by
      rw [← (mapM_option_forall₂ h1).length_eq, List.length_map]
    have hsumlen : sumN.length = summary.length := by
      rw [← (mapM_option_forall₂ h2).length_eq]
    have hpred : ∀ r : ReqRow, (fun s => decide (esJoinKeysMatch r s)) =
        (fun s => decide (sumKey6 s = reqKey6 r)) := by
      intro r
      funext s
      exact decide_eq_decide.mpr (esJoinKeysMatch_iff r s)
    rw [List.length_flatMap]
    refine Nat.le_min.mpr ⟨?_, ?_⟩
    · calc (reqN.map (List.length ∘ fun r =>
            (sumN.filter fun s => decide (esJoinKeysMatch r s)).map
              (fun s => mkEventSummaryRow r s))).sum
          ≤ (reqN.map (List.length ∘ fun r =>
            (sumN.filter fun s => decide (esJoinKeysMatch r s)).map
              (fun s => mkEventSummaryRow r s))).length • 1 := by
            refine List.sum_le_card_nsmul _ 1 (fun x hx => ?_)
            obtain ⟨r, -, rfl⟩ := List.mem_map.mp hx
            show ((sumN.filter fun s => decide (esJoinKeysMatch r s)).map
              (fun s => mkEventSummaryRow r s)).length ≤ 1
            rw [List.length_map, hpred r]
            exact length_filter_eq_key_le_one sumKey6 hns (reqKey6 r)
        _ = requirements.length := by
            rw [List.length_map, smul_eq_mul, mul_one, hreqlen]
    · calc (reqN.map (List.length ∘ fun r =>
            (sumN.filter fun s => decide (esJoinKeysMatch r s)).map
              (fun s => mkEventSummaryRow r s))).sum
          = (reqN.map fun r =>
            (sumN.filter fun s => decide (sumKey6 s = reqKey6 r)).length).sum := by
            refine congrArg List.sum (List.map_congr_left (fun r _ => ?_))
            show ((sumN.filter fun s => decide (esJoinKeysMatch r s)).map
              (fun s => mkEventSummaryRow r s)).length = _
            rw [List.length_map, hpred r]
        _ ≤ sumN.length := sum_filter_lengths_le reqKey6 sumKey6 reqN sumN hnr
        _ = summary.length := hsumlen

def c1Req : List RawReqRow :=
  [{ deliveryDate := "2023-01-01", fromGMTRaw := "17:00", toGMTRaw := "17:30",
     eventType := "LIVE", requiredMw := 100, procuredDayAheadMw := 50 },
   { deliveryDate := "2023-01-01", fromGMTRaw := "17:00", toGMTRaw := "17:30",
     eventType := "LIVE", requiredMw := 100, procuredDayAheadMw := 50 }]

def c1Sum : List SummaryRow :=
  [{ date := "2023-01-01", fromGMT := "17:00", toGMT := "17:30",
     eventType := "LIVE", settledVolume := 40, settledCost := 1,
     d0ProcuredMw := 60 },
   { date := "2023-01-01", fromGMT := "17:00", toGMT := "17:30",
     eventType := "LIVE", settledVolume := 40, settledCost := 1,
     d0ProcuredMw := 60 }]

/-- C1 (counterexample): with duplicated join keys on both sides (two
identical requirement rows and two identical summary rows) the pandas-style
inner merge produces the 2×2 cartesian product, 4 rows, exceeding
`min(2, 2) = 2` — so the row-count bound does not hold unconditionally. -/
theorem c1_event_summary_six_key_join_counterexample :
    (get_event_summary c1Req c1Sum).map List.length = some 4 ∧
    min c1Req.length c1Sum.length = 2 ∧ ¬ (4 ≤ 2) := by
  exact ⟨by decide, by decide, by decide⟩

def c1wReq : List RawReqRow :=
  [{ deliveryDate := "2023-01-01", fromGMTRaw := "17:00", toGMTRaw := "17:30",
     eventType := "LIVE", requiredMw := 100, procuredDayAheadMw := 50 }]

def c1wSum : List SummaryRow :=
  [{ date := "2023-01-01", fromGMT := "17:00", toGMT := "17:30",
     eventType := "LIVE", settledVolume := 40, settledCost := 1,
     d0ProcuredMw := 60 }]

def c1wReqN : ReqRow :=
  { date := "2023-01-01", fromGMT := "17:00", toGMT := "17:30",
    eventType := "LIVE", requiredMw := 100, procuredDayAheadMw := 50,
    spStart := some 1211906460, spEnd := some 1211906490 }

def c1wSumN : SummaryRow :=
  { date := "2023-01-01", fromGMT := "17:00", toGMT := "17:30",
    eventType := "LIVE", settledVolume := 40, settledCost := 1,
    d0ProcuredMw := 60, spStart := some 1211906460, spEnd := some 1211906490 }

theorem c1_event_summary_six_key_join_witness :
    ([c1wReqN].flatMap fun r =>
      ([c1wSumN].filter fun s => decide (esJoinKeysMatch r s)).map
        (fun s => mkEventSummaryRow r s)).length ≤
      min c1wReq.length c1wSum.length := by
  have h1 : append_settlement_periods_req (c1wReq.map renameRequirements) =
      some [c1wReqN] := by decide
  have h2 : append_settlement_periods_summary c1wSum = some [c1wSumN] := by
    decide
  exact (c1_event_summary_six_key_join c1wReq c1wSum [c1wReqN] [c1wSumN] _
    h1 h2 (get_event_summary_eq h1 h2)).2 (by decide) (by decide)

theorem mem_regional_flex_cum_iff {regions : List DnoRegion}
    {bids : List BidRow} {metrics : List (String × ℚ)} {row : RegionalCumRow} :
    row ∈ (get_regional_flex regions bids metrics).1 ↔
      ∃ reg ∈ regions,
        reg.name ∈ sortedUniqueKeys String.toList
          ((get_regional_flex regions bids metrics).2.map (·.dnoRegionName)) ∧
        row = { name := reg.name, payload := reg.payload,
                value := roundQ (medianQ
                  (((get_regional_flex regions bids metrics).2.filter fun p =>
                    decide (p.dnoRegionName = reg.name)).map (·.value))),
                flexMwh := roundQ
                  ((((get_regional_flex regions bids metrics).2.filter fun p =>
                    decide (p.dnoRegionName = reg.name)).map (·.flexMwh)).sum) } := by
  show row ∈ day_ahead_flex_cumulative_by_region regions bids metrics ↔ _
  rw [day_ahead_flex_cumulative_by_region]
  simp only [List.mem_flatMap, List.mem_filter, List.mem_map,
    decide_eq_true_eq]
  constructor
  · rintro ⟨reg, hreg, c, ⟨⟨k, hk, rfl⟩, hkr⟩, rfl⟩
    simp only at hkr
    subst hkr
    exact ⟨reg, hreg, hk, rfl⟩
  · rintro ⟨reg, hreg, hk, rfl⟩
    exact ⟨reg, hreg, (reg.name, _, _), ⟨⟨reg.name, hk, rfl⟩, rfl⟩, rfl⟩

/-- C3 (amended): for every region in the cumulative-by-region table, the
cumulative energy equals the **rounded** (half-to-even, pandas `.round()`)
sum of that region's per-(date, region) `flex_mwh` values, and the
cumulative power equals the rounded median of that region's per-(date,
region) power values. -/
theorem c3_regional_cumulative_rounded (regions : List DnoRegion)
    (bids : List BidRow) (metrics : List (String × ℚ)) :
    ∀ row ∈ (get_regional_flex regions bids metrics).1,
      row.flexMwh = roundQ
        ((((get_regional_flex regions bids metrics).2.filter fun p =>
          decide (p.dnoRegionName = row.name)).map (·.flexMwh)).sum) ∧
      row.value = roundQ (medianQ
        (((get_regional_flex regions bids metrics).2.filter fun p =>
          decide (p.dnoRegionName = row.name)).map (·.value))) := by
  intro row hrow
  obtain ⟨reg, -, -, rfl⟩ := mem_regional_flex_cum_iff.mp hrow
  exact ⟨rfl, rfl⟩

def c3Regions : List DnoRegion := [{ name := "_A", payload := "geomA" }]

def c3Bids : List BidRow :=
  [{ date := "2023-01-01", provider := "P", fromGMT := "17:00",
     toGMT := "17:30", eventType := "LIVE",
     vals := fun c => if c = "East England" then 1/2 else 0 }]

def c3Metrics : List (String × ℚ) := [("2023-01-01", 1)]

/-- The averaged day-ahead forecast value the pipeline derives for the one
region and date of the C3 example. -/
def c3v : ℚ := (geo_row c3Bids "2023-01-01" "East England").value

theorem c3v_eq : c3v = 1 / 2 := by
  have h : c3v = ((1 / 2 + 0 + 0 : ℚ)) / ((1 : ℕ) : ℚ) := rfl
  rw [h]
  norm_num

theorem c3_floor_half : ⌊(1 / 2 : ℚ)⌋ = 0 := by
  rw [Int.floor_eq_iff]
  norm_num

theorem c3_roundQ_half : roundQ (1 / 2) = 0 := by
  rw [roundQ, roundHalfEven, c3_floor_half]
  norm_num

/-- C3 (counterexample): with a single bid averaging to half a megawatt for
one region over a one-hour event, the per-(date, region) energy is 1/2 MWh
but the cumulative-by-region table reports `round(1/2) = 0` — the rounding
in the source makes the cumulative energy differ from the sum of the
per-event energies. -/
theorem c3_regional_cumulative_counterexample :
    (get_regional_flex c3Regions c3Bids c3Metrics).1.map (·.flexMwh) = [0] ∧
    (get_regional_flex c3Regions c3Bids c3Metrics).2.map (·.flexMwh) = [1 / 2] ∧
    (0 : ℚ) ≠ ([(1 / 2 : ℚ)]).sum := by
  have hper : (get_regional_flex c3Regions c3Bids c3Metrics).2.map (·.flexMwh) =
      [c3v * 1] := rfl
  have hcum : (get_regional_flex c3Regions c3Bids c3Metrics).1.map (·.flexMwh) =
      [roundQ (c3v * 1 + 0)] := rfl
  refine ⟨?_, ?_, by norm_num⟩
  · rw [hcum, c3v_eq]
    norm_num [c3_roundQ_half]
  · rw [hper, c3v_eq]
    norm_num

/-- The one row of the cumulative-by-region table in the C3 example. -/
def c3CumRow : RegionalCumRow :=
  { name := "_A", payload := "geomA",
    value := roundQ (medianQ
      (((get_regional_flex c3Regions c3Bids c3Metrics).2.filter fun p =>
        decide (p.dnoRegionName = "_A")).map (·.value))),
    flexMwh := roundQ
      ((((get_regional_flex c3Regions c3Bids c3Metrics).2.filter fun p =>
        decide (p.dnoRegionName = "_A")).map (·.flexMwh)).sum) }

theorem c3_regional_cumulative_rounded_witness :
    c3CumRow ∈ (get_regional_flex c3Regions c3Bids c3Metrics).1 ∧
    c3CumRow.flexMwh = roundQ
      ((((get_regional_flex c3Regions c3Bids c3Metrics).2.filter fun p =>
        decide (p.dnoRegionName = "_A")).map (·.flexMwh)).sum) := by
  have hmem : c3CumRow ∈ (get_regional_flex c3Regions c3Bids c3Metrics).1 :=
    mem_regional_flex_cum_iff.mpr
      ⟨{ name := "_A", payload := "geomA" }, by decide, by decide, rfl⟩
  exact ⟨hmem,
    (c3_regional_cumulative_rounded c3Regions c3Bids c3Metrics _ hmem).1⟩

theorem bid_norm_row_eq {a r : BidRow} (h : bid_norm_row a = some r) :
    ∃ s e, r = { a with spStart := some s, spEnd := some e } := by
  rw [bid_norm_row] at h
  cases hs : toDatetimeLocalized a.date a.fromGMT with
  | none => rw [hs] at h; simp at h
  | some s =>
    cases he : toDatetimeLocalized a.date a.toGMT with
    | none => rw [hs, he] at h; simp at h
    | some e =>
      rw [hs, he] at h
      simp only [Option.bind_eq_bind, Option.some_bind, Option.pure_def,
        Option.some_inj] at h
      exact ⟨s, e, h.symm⟩

/-- C4 (amended): traced caller-visible effects of the transform layer.
The Settlement Period Normaliser assigns exactly the two timestamp columns
**on the frame it is given** and leaves every other column unchanged; since
`get_bids_by_provider_event` pipes the caller's `bids` and
`get_event_summary` pipes the caller's `summary` straight into it, those two
caller tables gain the two columns in place, while `requirements` (copied by
`rename` first) and the inputs of `get_metrics_by_dfs_event` and
`get_regional_flex` are left unchanged. -/
theorem c4_caller_table_effects :
    (∀ (df out : List SummaryRow),
      append_settlement_periods_summary df = some out →
      List.Forall₂ (fun r r' : SummaryRow =>
        r'.spStart.isSome = true ∧ r'.spEnd.isSome = true ∧
        r' = { r with spStart := r'.spStart, spEnd := r'.spEnd }) df out) ∧
    (∀ (bids out : List BidRow),
      get_bids_by_provider_event_bids_after bids = some out →
      List.Forall₂ (fun r r' : BidRow =>
        r'.spStart.isSome = true ∧ r'.spEnd.isSome = true ∧
        r' = { r with spStart := r'.spStart, spEnd := r'.spEnd }) bids out) ∧
    (∀ (req : List RawReqRow) (summ : List SummaryRow)
      (req' : List RawReqRow) (summ' : List SummaryRow),
      get_event_summary_args_after req summ = some (req', summ') →
      req' = req ∧ append_settlement_periods_summary summ = some summ') ∧
    (∀ (bids : List BidRow) (es : List EventSummaryRow),
      get_metrics_by_dfs_event_args_after bids es = (bids, es)) ∧
    (∀ (regions : List DnoRegion) (bids : List BidRow)
      (m : List (String × ℚ)),
      get_regional_flex_args_after regions bids m = (regions, bids, m)) := by
  refine ⟨?_, ?_, ?_, fun bids es => rfl, fun regions bids m => rfl⟩
  · intro df out h
    refine (mapM_option_forall₂ h).imp (fun {a r} har => ?_)
    obtain ⟨s, e, -, -, rfl⟩ := append_summary_row_eq har
    exact ⟨rfl, rfl, rfl⟩
  · intro bids out h
    refine (mapM_option_forall₂ h).imp (fun {a r} har => ?_)
    obtain ⟨s, e, rfl⟩ := bid_norm_row_eq har
    exact ⟨rfl, rfl, rfl⟩
  · intro req summ req' summ' h
    rw [get_event_summary_args_after] at h
    cases h1 : append_settlement_periods_req (req.map renameRequirements) with
    | none => rw [h1] at h; simp at h
    | some reqN =>
      cases h2 : append_settlement_periods_summary summ with
      | none => rw [h1, h2] at h; simp at h
      | some sumN =>
        rw [h1, h2] at h
        simp only [Option.bind_eq_bind, Option.some_bind, Option.pure_def,
          Option.some_inj] at h
        have hreq : req = req' := congrArg Prod.fst h
        have hsum : sumN = summ' := congrArg Prod.snd h
        exact ⟨hreq.symm, congrArg some hsum⟩

def c4Bids : List BidRow :=
  [{ date := "2023-01-01", provider := "P", fromGMT := "17:00",
     toGMT := "17:30", eventType := "LIVE", vals := fun _ => 0 }]

def c4Req : List RawReqRow :=
  [{ deliveryDate := "2023-01-01", fromGMTRaw := "17:00", toGMTRaw := "17:30",
     eventType := "LIVE", requiredMw := 100, procuredDayAheadMw := 50 }]

def c4Sum : List SummaryRow :=
  [{ date := "2023-01-01", fromGMT := "17:00", toGMT := "17:30",
     eventType := "LIVE", settledVolume := 40, settledCost := 1,
     d0ProcuredMw := 60 }]

def c4SumN : SummaryRow :=
  { date := "2023-01-01", fromGMT := "17:00", toGMT := "17:30",
    eventType := "LIVE", settledVolume := 40, settledCost := 1,
    d0ProcuredMw := 60, spStart := some 1211906460, spEnd := some 1211906490 }

/-- C4 (counterexample): after `get_bids_by_provider_event` the caller's
bids table carries a `settlement_period_start` column it did not have
before, and after `get_event_summary` the caller's summary table is not the
table that was passed in — the claim that no caller-supplied table is
observably mutated is false. -/
theorem c4_caller_table_effects_counterexample :
    (get_bids_by_provider_event_bids_after c4Bids).map
      (fun l => l.map (·.spStart)) = some [some 1211906460] ∧
    c4Bids.map (·.spStart) = [none] ∧
    get_bids_by_provider_event_bids_after c4Bids ≠ some c4Bids ∧
    get_event_summary_args_after c4Req c4Sum ≠ some (c4Req, c4Sum) := by
  have h1 : (get_bids_by_provider_event_bids_after c4Bids).map
      (fun l => l.map (·.spStart)) = some [some 1211906460] := by decide
  refine ⟨h1, by decide, ?_, by decide⟩
  intro h
  rw [h] at h1
  simp only [Option.map_some', Option.some_inj] at h1
  exact absurd h1 (by decide)

theorem c4_caller_table_effects_witness :
    (c4Req = c4Req ∧ append_settlement_periods_summary c4Sum = some [c4SumN]) ∧
    List.Forall₂ (fun r r' : SummaryRow =>
      r'.spStart.isSome = true ∧ r'.spEnd.isSome = true ∧
      r' = { r with spStart := r'.spStart, spEnd := r'.spEnd })
      c4Sum [c4SumN] :=
  ⟨c4_caller_table_effects.2.2.1 c4Req c4Sum c4Req [c4SumN] (by decide),
   c4_caller_table_effects.1 c4Sum [c4SumN] (by decide)⟩
